import Mathlib

/-!
HIPxx bindings: fat-binary admission, function fan-out and backend lifecycle

A shallow embedding of `src/HIPxxBindings.cc`:

* `__hipRegisterFatBinary`, `__hipUnregisterFatBinary`, `__hipRegisterFunction`,
  `hipSetupArgument` and `hipMalloc` are translated statement by statement;
* process memory read through `const void *` is a function from addresses to
  bytes; integers are little-endian, pointers and `size_t` are 64 bits wide
  (LP64), `unsigned` is 32 bits wide;
* `std::abort()` ends a call with `Outcome.abort`, which keeps the state reached
  at the abort and the kind of failure; so do, in `__hipRegisterFatBinaryIn`, a
  read of an address that is not readable and an exception of `std::string`;
* every call into the backend, a device or the lifecycle controller is recorded
  in `State.trace`, in program order.

The constants of `hip/hip_fatbin.h` are parameters (`FatbinDecls`).  The bodies
of `HIPxxInitialize`, `HIPxxUninitialize` and of the `Backend` methods are not
part of `HIPxxBindings.cc`; they are modelled from the specification, and each
such definition says so.
-/

set_option maxRecDepth 100000

namespace HIPxx

/-! ## Memory and integer decoding -/

/-- Process memory: the byte stored at each address (taken modulo 256). -/
abbrev Memory := Nat → Nat

/-- The byte at address `a`. -/
def byteAt (mem : Memory) (a : Nat) : Nat := mem a % 256

/-- The `n` bytes at addresses `a, a+1, …, a+n-1`. -/
def loadBytes (mem : Memory) (a : Nat) : Nat → List Nat
  | 0 => []
  | n + 1 => byteAt mem a :: loadBytes mem (a + 1) n

/-- Value of a little-endian byte sequence. -/
def leValue : List Nat → Nat
  | [] => 0
  | b :: bs => b + 256 * leValue bs

/-- An `unsigned int` (32 bits) stored at `a`. -/
def readU32 (mem : Memory) (a : Nat) : Nat := leValue (loadBytes mem a 4)

/-- A `uint64_t` or pointer (64 bits) stored at `a`. -/
def readU64 (mem : Memory) (a : Nat) : Nat := leValue (loadBytes mem a 8)

/-! ## `std::string` comparison -/

/-- The characters of a C string literal up to its terminating NUL. -/
def cstr (lit : List Nat) : List Nat := lit.takeWhile (fun c => c != 0)

/-- `std::string::compare(const char*)`: negative, zero or positive as the
    receiver is lexicographically below, equal to or above the argument. -/
def string_compare : List Nat → List Nat → Int
  | [], [] => 0
  | [], _ :: _ => -1
  | _ :: _, [] => 1
  | a :: as, b :: bs =>
    if a < b then -1 else if b < a then 1 else string_compare as bs

/-! ## Declarations of `hip/hip_fatbin.h`

Record layouts, as the wire format gives them (LP64, no padding other than
natural alignment):

* `__CudaFatBinaryWrapper`: `magic` (unsigned) at 0, `version` (unsigned) at 4,
  `binary` (pointer) at 8;
* `__ClangOffloadBundleHeader`: `magic` (characters) at 0, `numBundles`
  (`uint64_t`) at the next multiple of 8, `desc[0]` right after it;
* `__ClangOffloadBundleDesc`: `offset` at 0, `size` at 8, `tripleSize` at 16
  (`uint64_t` each), `triple` (characters) at 24.
-/

/-- `#define SPIR_TRIPLE "hip-spir64-unknown-unknown"`, as bytes. -/
def SPIR_TRIPLE : List Nat :=
  [104, 105, 112, 45, 115, 112, 105, 114, 54, 52, 45, 117, 110, 107, 110, 111, 119, 110,
   45, 117, 110, 107, 110, 111, 119, 110]

/-- The two constants of `hip/hip_fatbin.h` the bindings use; the header is not
    among the sources, so they are parameters.  `CLANG_OFFLOAD_BUNDLER_MAGIC`
    holds the characters of the string literal (without the terminating NUL). -/
structure FatbinDecls where
  hipFatMAGIC2 : Nat
  CLANG_OFFLOAD_BUNDLER_MAGIC : List Nat

/-- `sizeof(CLANG_OFFLOAD_BUNDLER_MAGIC) - 1`. -/
def FatbinDecls.magicLen (d : FatbinDecls) : Nat := d.CLANG_OFFLOAD_BUNDLER_MAGIC.length

/-- Offset of `numBundles` in `__ClangOffloadBundleHeader`: the `char` array
    `magic[sizeof(CLANG_OFFLOAD_BUNDLER_MAGIC) - 1]` padded to the alignment of
    `uint64_t`. -/
def FatbinDecls.numBundlesOff (d : FatbinDecls) : Nat := (d.magicLen + 7) / 8 * 8

/-- Offset of `desc[0]` in `__ClangOffloadBundleHeader`. -/
def FatbinDecls.descOff (d : FatbinDecls) : Nat := d.numBundlesOff + 8

/-! ## State, effects and outcomes -/

/-- A device of the backend: its `registerFunction(module, hostFunction,
    deviceName)` capability, `true` when the kernel was found and bound. -/
structure Device where
  registerFunction : Nat → Nat → String → Bool

/-- Calls that leave `HIPxxBindings.cc`, and the effects of the lifecycle
    controller, in the order they happen. -/
inductive Effect where
  /-- a call of `HIPxxInitialize()` -/
  | init_call
  /-- the transition Uninitialized → Initialized performed inside `HIPxxInitialize()` -/
  | init_effect
  /-- a call of `HIPxxUninitialize()` -/
  | uninit_call
  /-- `Backend->register_module(module)` -/
  | register_module (module : Nat)
  /-- `Backend->unregister_module(module)` -/
  | unregister_module (module : Nat)
  /-- `dev->registerFunction(module, hostFunction, deviceName)` on the device
      at position `dev` of `Backend->get_devices()` -/
  | registerFunction (dev : Nat) (module : Nat) (hostFunction : Nat) (deviceName : String)
  /-- `Backend->get_default_context()->allocate(size)` -/
  | allocate (size : Nat)
  /-- `delete module` -/
  | delete_module (module : Nat)
  deriving DecidableEq, Repr

/-- Process-wide state the bindings read and write. -/
structure State where
  /-- `static unsigned binaries_loaded` -/
  binaries_loaded : Nat
  /-- lifecycle of the backend: `true` is Initialized -/
  initialized : Bool
  /-- `Backend->get_devices()` -/
  devices : List Device
  /-- handles the backend holds as registered modules -/
  modules : List Nat
  /-- live `std::string` objects created by `new std::string`: address and bytes -/
  heap : List (Nat × List Nat)
  /-- the accelerators device discovery finds -/
  platform : List Device
  /-- `Backend->get_default_context()->allocate`: 0 is the null pointer -/
  allocate : Nat → Nat
  /-- effects so far, oldest first -/
  trace : List Effect

/-- Appends an effect to the trace. -/
def State.emit (s : State) (e : Effect) : State := { s with trace := s.trace ++ [e] }

/-- `module->assign(bytes)` on the `std::string` object at address `p`. -/
def State.assign (s : State) (p : Nat) (bytes : List Nat) : State :=
  { s with heap := s.heap.map (fun o => if o.1 = p then (p, bytes) else o) }

/-- The ways a call ends the process: `std::abort()`, an exception that leaves
    the `extern "C"` function uncaught, or a memory fault. -/
inductive Fatal where
  /-- "The given object is not hipFatBinary" / "not Clang bundled" -/
  | InvalidContainer
  /-- "Failed to allocate memory" -/
  | OutOfMemory
  /-- "Didn't find any suitable compiled binary!" -/
  | NoMatchingTarget
  /-- "__hipRegisterFunction can NOT find kernel" -/
  | SymbolNotFound
  /-- unregistration of a handle that is not active -/
  | UnknownHandle
  /-- the process is killed on reading an address that is not readable -/
  | MemoryFault
  /-- `std::length_error` thrown by a `std::string` operation -/
  | LengthError
  /-- `std::bad_alloc` thrown by a `std::string` operation -/
  | BadAlloc
  deriving DecidableEq, Repr

/-- How a call ends: it returns a value, or the process aborts. -/
inductive Outcome (α : Type) where
  | ret (s : State) (a : α)
  | abort (s : State) (f : Fatal)

/-- The state a call ends in. -/
def Outcome.state {α : Type} : Outcome α → State
  | .ret s _ => s
  | .abort s _ => s

/-- Whether the call returned to its caller. -/
def Outcome.returned {α : Type} : Outcome α → Bool
  | .ret _ _ => true
  | .abort _ _ => false

/-- The failure of an aborted call. -/
def Outcome.fatal {α : Type} : Outcome α → Option Fatal
  | .ret _ _ => none
  | .abort _ f => some f

/-- The value a call returned. -/
def Outcome.value {α : Type} : Outcome α → Option α
  | .ret _ a => some a
  | .abort _ _ => none

/-! ## Lifecycle controller and backend (modelled from the specification) -/

/-- Modelled from the spec: `HIPxxInitialize` (HIPxxDriver) is not among the
    sources.  §4.4: idempotent; establishes backend global state (device
    discovery, default context construction) if not already established;
    re-entrant calls in the Initialized state are no-ops. -/
def HIPxxInitialize (s : State) : State :=
  if s.initialized then s
  else { s with initialized := true, devices := s.platform, trace := s.trace ++ [.init_effect] }

/-- Modelled from the spec: `HIPxxUninitialize` (HIPxxDriver) is not among the
    sources.  §4.4: tears down backend global state (releases discovered devices
    and contexts); the lifecycle returns to Uninitialized. -/
def HIPxxUninitialize (s : State) : State :=
  { s with initialized := false, devices := [] }

/-- Modelled from the spec: `Backend->register_module` (HIPxxBackend) is not
    among the sources.  §4.2: the module becomes active in the registry. -/
def Backend.register_module (s : State) (module : Nat) : State :=
  { s with modules := module :: s.modules }

/-- Modelled from the spec: `Backend->unregister_module` (HIPxxBackend) is not
    among the sources.  §4.2: requires the handle to be currently active and
    marks it destroyed; an inactive or unknown handle is a fatal usage error
    (`none`). -/
def Backend.unregister_module (s : State) (module : Nat) : Option State :=
  if module ∈ s.modules then some { s with modules := s.modules.erase module } else none

/-! ## `HIPxxBindings.cc` -/

/-- The descriptor loop of `__hipRegisterFatBinary`: `n` is the number of
    iterations left (`header->numBundles - i`), `desc` the descriptor pointer.
    `some desc` is `found = true` at that descriptor, `none` is `found = false`. -/
def findDesc (mem : Memory) : Nat → Nat → Option Nat
  | 0, _ => none
  | n + 1, desc =>
    if string_compare (loadBytes mem (desc + 24) SPIR_TRIPLE.length) (cstr SPIR_TRIPLE) = 0 then
      some desc
    else
      findDesc mem n ((desc + 24 + readU64 mem (desc + 16)) % 2 ^ 64)

/-- `__hipRegisterFatBinary(data)`; `p` is the address `new std::string` returns.
    Every address the call reads is taken to be readable and no string to be
    refused; `__hipRegisterFatBinaryIn` drops these two assumptions. -/
def __hipRegisterFatBinary (d : FatbinDecls) (s : State) (mem : Memory) (data p : Nat) :
    Outcome Nat :=
  let s := HIPxxInitialize (s.emit .init_call)
  if readU32 mem data ≠ d.hipFatMAGIC2 ∨ readU32 mem (data + 4) ≠ 1 then
    .abort s .InvalidContainer
  else
    let header := readU64 mem (data + 8)
    let magic := loadBytes mem header d.magicLen
    if string_compare magic (cstr d.CLANG_OFFLOAD_BUNDLER_MAGIC) ≠ 0 then
      .abort s .InvalidContainer
    else
      let s := { s with heap := (p, []) :: s.heap }
      if p = 0 then
        .abort s .OutOfMemory
      else
        match findDesc mem (readU64 mem (header + d.numBundlesOff)) (header + d.descOff) with
        | none => .abort s .NoMatchingTarget
        | some desc =>
          let string_data := (header + readU64 mem desc) % 2 ^ 64
          let string_size := readU64 mem (desc + 8)
          let s := s.assign p (loadBytes mem string_data string_size)
          let s := Backend.register_module (s.emit (.register_module p)) p
          let s := { s with binaries_loaded := (s.binaries_loaded + 1) % 2 ^ 32 }
          .ret s p

/-- `__hipUnregisterFatBinary(data)`.  `--binaries_loaded` on a 32-bit `unsigned`
    adds `2^32 - 1` modulo `2^32`. -/
def __hipUnregisterFatBinary (s : State) (data : Nat) : Outcome Unit :=
  let s := s.emit (.unregister_module data)
  match Backend.unregister_module s data with
  | none => .abort s .UnknownHandle
  | some s =>
    let s := { s with binaries_loaded := (2 ^ 32 - 1 + s.binaries_loaded) % 2 ^ 32 }
    let s := if s.binaries_loaded = 0 then HIPxxUninitialize (s.emit .uninit_call) else s
    .ret { s with heap := s.heap.filter (fun o => o.1 != data),
                  trace := s.trace ++ [.delete_module data] } ()

/-- The loop `for (HIPxxDevice *dev : Backend->get_devices())` of
    `__hipRegisterFunction`; `i` is the position of the next device. -/
def registerOnDevices (module hostFunction : Nat) (deviceName : String) :
    State → Nat → List Device → Outcome Unit
  | s, _, [] => .ret s ()
  | s, i, dev :: devs =>
    let s := s.emit (.registerFunction i module hostFunction deviceName)
    if dev.registerFunction module hostFunction deviceName then
      registerOnDevices module hostFunction deviceName s (i + 1) devs
    else
      .abort s .SymbolNotFound

/-- `__hipRegisterFunction(data, hostFunction, deviceFunction, deviceName,
    threadLimit, tid, bid, blockDim, gridDim, wSize)`. -/
def __hipRegisterFunction (s : State) (data hostFunction : Nat) (deviceFunction : String)
    (deviceName : String) (threadLimit tid bid blockDim gridDim wSize : Nat) : Outcome Unit :=
  let s := HIPxxInitialize (s.emit .init_call)
  registerOnDevices data hostFunction deviceName s 0 s.devices

/-- `hipError_t`, the values the bindings return. -/
inductive hipError_t where
  | hipSuccess
  | hipErrorInvalidValue
  | hipErrorMemoryAllocation
  deriving DecidableEq, Repr

/-- `hipSetupArgument(arg, size, offset)`. -/
def hipSetupArgument (s : State) (arg size offset : Nat) : Outcome hipError_t :=
  let s := HIPxxInitialize (s.emit .init_call)
  .ret s .hipSuccess

/-- `hipMalloc(ptr, size)`.  The second component of the value is the store
    `*ptr = v` the call performed, if any.  `ERROR_IF(c, e)` returns `e` when `c`
    holds and `RETURN(e)` returns `e` (macros of the repository's headers). -/
def hipMalloc (s : State) (ptr size : Nat) : Outcome (hipError_t × Option Nat) :=
  let s := HIPxxInitialize (s.emit .init_call)
  if ptr = 0 then
    .ret s (.hipErrorInvalidValue, none)
  else if size = 0 then
    .ret s (.hipSuccess, some 0)
  else
    let retval := s.allocate size
    let s := s.emit (.allocate size)
    if retval = 0 then
      .ret s (.hipErrorMemoryAllocation, none)
    else
      .ret s (.hipSuccess, some retval)

/-! ## Sequences of calls -/

/-- A call of one of the five entry points, with its arguments (and, for
    `__hipRegisterFatBinary`, the memory it reads and the address `new` returns). -/
inductive Call where
  | registerFatBinary (mem : Memory) (data p : Nat)
  | unregisterFatBinary (data : Nat)
  | registerFunction (data hostFunction : Nat) (deviceFunction deviceName : String)
      (threadLimit tid bid blockDim gridDim wSize : Nat)
  | setupArgument (arg size offset : Nat)
  | malloc (ptr size : Nat)

/-- Forgets the value a call returned. -/
def Outcome.discard {α : Type} : Outcome α → Outcome Unit
  | .ret s _ => .ret s ()
  | .abort s f => .abort s f

/-- One call. -/
def step (d : FatbinDecls) (s : State) : Call → Outcome Unit
  | .registerFatBinary mem data p => (__hipRegisterFatBinary d s mem data p).discard
  | .unregisterFatBinary data => __hipUnregisterFatBinary s data
  | .registerFunction data hostFunction deviceFunction deviceName threadLimit tid bid
      blockDim gridDim wSize =>
    __hipRegisterFunction s data hostFunction deviceFunction deviceName threadLimit tid bid
      blockDim gridDim wSize
  | .setupArgument arg size offset => (hipSetupArgument s arg size offset).discard
  | .malloc ptr size => (hipMalloc s ptr size).discard

/-- A sequence of calls, in order; the process stops at the first abort. -/
def run (d : FatbinDecls) : State → List Call → Outcome Unit
  | s, [] => .ret s ()
  | s, c :: cs =>
    match step d s c with
    | .ret s1 _ => run d s1 cs
    | .abort s1 f => .abort s1 f

/-- The state at program start: backend Uninitialized, `binaries_loaded = 0`,
    nothing registered, no effect observed. -/
def State.start (platform : List Device) (allocate : Nat → Nat) : State :=
  { binaries_loaded := 0, initialized := false, devices := [], modules := [], heap := [],
    platform := platform, allocate := allocate, trace := [] }

/-- Whether a call is `__hipRegisterFatBinary` or `__hipUnregisterFatBinary`. -/
def Call.isRegistryCall : Call → Bool
  | .registerFatBinary _ _ _ => true
  | .unregisterFatBinary _ => true
  | _ => false

/-- Largest number of modules loaded at once while `calls` run, `n` being
    loaded before the first call. -/
def peakLoaded : Nat → List Call → Nat
  | n, [] => n
  | n, .registerFatBinary _ _ _ :: cs => max n (peakLoaded (n + 1) cs)
  | n, .unregisterFatBinary _ :: cs => max n (peakLoaded (n - 1) cs)
  | n, _ :: cs => peakLoaded n cs

/-- Number of `__hipRegisterFatBinary` calls in a sequence. -/
def countRegister : List Call → Nat
  | [] => 0
  | .registerFatBinary _ _ _ :: cs => countRegister cs + 1
  | _ :: cs => countRegister cs

/-- Number of `__hipUnregisterFatBinary` calls in a sequence. -/
def countUnregister : List Call → Nat
  | [] => 0
  | .unregisterFatBinary _ :: cs => countUnregister cs + 1
  | _ :: cs => countUnregister cs

/-! ## The bundle wire format, for stating the parser's properties -/

/-- The `n` low-order bytes of `v`, least significant first. -/
def leBytes : Nat → Nat → List Nat
  | 0, _ => []
  | n + 1, v => v % 256 :: leBytes n (v / 256)

/-- One target descriptor of a bundle: payload offset and size (relative to the
    inner container) and the identifier bytes. -/
structure BundleDesc where
  offset : Nat
  size : Nat
  triple : List Nat

/-- Wire form of a descriptor (`__ClangOffloadBundleDesc`): `offset`, `size`
    and `tripleSize` as 64-bit integers, then the identifier bytes. -/
def encodeDesc (b : BundleDesc) : List Nat :=
  leBytes 8 b.offset ++ leBytes 8 b.size ++ leBytes 8 b.triple.length ++ b.triple

/-- Wire form of a descriptor list: the descriptors one after the other. -/
def encodeDescs : List BundleDesc → List Nat
  | [] => []
  | b :: bs => encodeDesc b ++ encodeDescs bs

/-- Address of descriptor `k` of a descriptor list laid out from `base`. -/
def descAddr (base : Nat) : List BundleDesc → Nat → Nat
  | _, 0 => base
  | [], _ + 1 => base
  | b :: bs, k + 1 => descAddr (base + 24 + b.triple.length) bs k

/-- Memory `mem` holds `bytes` from address `a` on. -/
def holds (mem : Memory) (a : Nat) (bytes : List Nat) : Prop :=
  loadBytes mem a bytes.length = bytes

instance (mem : Memory) (a : Nat) (bytes : List Nat) : Decidable (holds mem a bytes) := by
  unfold holds; infer_instance

/-- A memory holding `bytes` from address `base` on and `fill` everywhere else. -/
def memOfBytes (base : Nat) (bytes : List Nat) (fill : Nat) : Memory :=
  fun a => if a < base then fill else bytes.getD (a - base) fill

/-- The values `__hipFatMAGIC2` and `CLANG_OFFLOAD_BUNDLER_MAGIC`
    (`"__CLANG_OFFLOAD_BUNDLE__"`) have in HIP's `hip_fatbin.h`; used for the
    concrete bundles below. -/
def hipDecls : FatbinDecls :=
  { hipFatMAGIC2 := 0x48495046,
    CLANG_OFFLOAD_BUNDLER_MAGIC :=
      [95, 95, 67, 76, 65, 78, 71, 95, 79, 70, 70, 76, 79, 65, 68, 95, 66, 85, 78, 68, 76, 69,
       95, 95] }

/-- The bytes of a fat binary for `hipDecls` placed at address `base`: the
    wrapper (`magic`, `version`, `binary`, `dummy1`), then the inner container
    (magic string, `numBundles`, descriptors), then `rest`. -/
def fatBinaryBytes (base : Nat) (descs : List BundleDesc) (rest : List Nat) : List Nat :=
  leBytes 4 hipDecls.hipFatMAGIC2 ++ leBytes 4 1 ++ leBytes 8 (base + 24) ++ leBytes 8 0 ++
    hipDecls.CLANG_OFFLOAD_BUNDLER_MAGIC ++ leBytes 8 descs.length ++ encodeDescs descs ++ rest

/-- The state right after the call `HIPxxInitialize()` that opens an entry point. -/
def entered (s : State) : State := HIPxxInitialize (s.emit .init_call)

/-! ## Concrete bundles -/

/-- The identifier `"host-x86_64-unknown-linux-gnu"`. -/
def hostTriple : List Nat :=
  [104, 111, 115, 116, 45, 120, 56, 54, 95, 54, 52, 45, 117, 110, 107, 110, 111, 119, 110, 45,
   108, 105, 110, 117, 120, 45, 103, 110, 117]

/-- The identifier `"hip-amdgcn-amd-amdhsa"`. -/
def amdTriple : List Nat :=
  [104, 105, 112, 45, 97, 109, 100, 103, 99, 110, 45, 97, 109, 100, 45, 97, 109, 100, 104, 115,
   97]

/-- The identifier `"hip-spir64-unknown-unknow"`: 25 characters, one short of
    `SPIR_TRIPLE`. -/
def shortTriple : List Nat :=
  [104, 105, 112, 45, 115, 112, 105, 114, 54, 52, 45, 117, 110, 107, 110, 111, 119, 110, 45,
   117, 110, 107, 110, 111, 119]

/-- Descriptors host, SPIR, AMD with payloads at offsets 180, 183 and 187. -/
def descsHostSpirAmd : List BundleDesc :=
  [⟨180, 3, hostTriple⟩, ⟨183, 4, SPIR_TRIPLE⟩, ⟨187, 2, amdTriple⟩]

/-- A fat binary at address 64 (inner container at 88) with three targets;
    the payloads are `[10, 11, 12]`, `[20, 21, 22, 23]` and `[30, 31]`. -/
def memHostSpirAmd : Memory :=
  memOfBytes 64 (fatBinaryBytes 64 descsHostSpirAmd [10, 11, 12, 20, 21, 22, 23, 30, 31]) 0

/-- Descriptors for `"hip-spir64-unknown-unknow"` (payload at 176), SPIR (payload
    at 366 = 0x16e) and AMD (payload at 179). -/
def descsShortSpirAmd : List BundleDesc :=
  [⟨176, 3, shortTriple⟩, ⟨366, 4, SPIR_TRIPLE⟩, ⟨179, 2, amdTriple⟩]

/-- A fat binary at address 64 with the targets of `descsShortSpirAmd`; the
    payloads are `[10, 11, 12]`, `[20, 21, 22, 23]` and `[30, 31]`. -/
def memShortSpirAmd : Memory :=
  memOfBytes 64
    (fatBinaryBytes 64 descsShortSpirAmd
      ([10, 11, 12, 30, 31] ++ List.replicate 185 0 ++ [20, 21, 22, 23])) 0

/-- Descriptors for `"hip-spir64-unknown-unknow"` (payload at 134) and host
    (payload at 366 = 0x16e): no SPIR descriptor. -/
def descsShortHost : List BundleDesc :=
  [⟨134, 3, shortTriple⟩, ⟨366, 2, hostTriple⟩]

/-- A fat binary at address 64 with the targets of `descsShortHost`; the
    payloads are `[10, 11, 12]` and `[30, 31]`. -/
def memShortHost : Memory :=
  memOfBytes 64
    (fatBinaryBytes 64 descsShortHost ([10, 11, 12] ++ List.replicate 229 0 ++ [30, 31])) 0

/-- A fat binary at address 64 with the two targets host and AMD. -/
def memHostAmd : Memory :=
  memOfBytes 64
    (fatBinaryBytes 64 [⟨130, 3, hostTriple⟩, ⟨133, 2, amdTriple⟩] [10, 11, 12, 30, 31]) 0

/-- A fat binary at address 64 with a single SPIR descriptor, payload `[20, 21]`. -/
def memSpir : Memory :=
  memOfBytes 64 (fatBinaryBytes 64 [⟨82, 2, SPIR_TRIPLE⟩] [20, 21]) 0

/-- The bind calls `__hipRegisterFunction` makes on the first `k` devices, in
    device-list order. -/
def bindCalls (module hostFunction : Nat) (deviceName : String) (k : Nat) : List Effect :=
  (List.range k).map (fun i => Effect.registerFunction i module hostFunction deviceName)

/-- Appends effects to the trace. -/
def State.emitAll (s : State) (es : List Effect) : State := { s with trace := s.trace ++ es }

/-- A device on which every symbol is found. -/
def deviceAll : Device := { registerFunction := fun _ _ _ => true }

/-- A device on which only the symbol `"foo"` is found. -/
def deviceFoo : Device := { registerFunction := fun _ _ name => name == "foo" }

/-- Number of times the count of loaded modules leaves 0 (a
    `__hipRegisterFatBinary` call made with nothing loaded) while `calls` run,
    `n` modules being loaded before the first call. -/
def leavesZero : Nat → List Call → Nat
  | _, [] => 0
  | n, .registerFatBinary _ _ _ :: cs => (if n = 0 then 1 else 0) + leavesZero (n + 1) cs
  | n, .unregisterFatBinary _ :: cs => leavesZero (n - 1) cs
  | n, _ :: cs => leavesZero n cs

/-- Number of times the count of loaded modules returns to 0 (a
    `__hipUnregisterFatBinary` call made with one module loaded) while `calls`
    run, `n` modules being loaded before the first call. -/
def returnsToZero : Nat → List Call → Nat
  | _, [] => 0
  | n, .registerFatBinary _ _ _ :: cs => returnsToZero (n + 1) cs
  | n, .unregisterFatBinary _ :: cs => (if n = 1 then 1 else 0) + returnsToZero (n - 1) cs
  | n, _ :: cs => returnsToZero n cs

/-- `n` calls of `__hipRegisterFatBinary` on the bundle `memSpir`, `new`
    returning the addresses `first`, `first + 32`, `first + 64`, … -/
def registerBurst : Nat → Nat → List Call
  | _, 0 => []
  | first, n + 1 => .registerFatBinary memSpir 64 first :: registerBurst (first + 32) n

/-- Register a module, unregister it, register a module again. -/
def callsInOutIn : List Call :=
  [.registerFatBinary memSpir 64 4096, .unregisterFatBinary 4096,
   .registerFatBinary memSpir 64 4096]

/-- Register two modules, unregister the first. -/
def callsTwoInOneOut : List Call :=
  [.registerFatBinary memSpir 64 4096, .registerFatBinary memSpir 64 4128,
   .unregisterFatBinary 4096]

/-! ## The descriptor loop, iteration by iteration -/

/-- The increment of the descriptor loop: the pointer that follows `desc`,
    `reinterpret_cast<uintptr_t>(&desc->triple[0]) + desc->tripleSize`. -/
def nextDesc (mem : Memory) (desc : Nat) : Nat :=
  (desc + 24 + readU64 mem (desc + 16)) % 2 ^ 64

/-- The value of `desc` when the loop enters iteration `k`, starting from
    `desc` at iteration 0 and no earlier iteration having left the loop. -/
def loopDesc (mem : Memory) : Nat → Nat → Nat
  | desc, 0 => desc
  | desc, k + 1 => loopDesc mem (nextDesc mem desc) k

/-- The descriptor loop of `__hipRegisterFatBinary` with its result replaced by
    the list of descriptor pointers its iterations examine, in order: `n`
    iterations are left, `desc` is the pointer of the next one. -/
def examined (mem : Memory) : Nat → Nat → List Nat
  | 0, _ => []
  | n + 1, desc =>
    if string_compare (loadBytes mem (desc + 24) SPIR_TRIPLE.length) (cstr SPIR_TRIPLE) = 0 then
      [desc]
    else
      desc :: examined mem n ((desc + 24 + readU64 mem (desc + 16)) % 2 ^ 64)

/-- The address `base + Σ_{j<k} (24 + tripleSize_j)`, where `tripleSize_j` is
    the 64-bit integer stored 16 bytes into descriptor `j`. -/
def strideAddr (mem : Memory) (base : Nat) : Nat → Nat
  | 0 => base
  | k + 1 => strideAddr mem base k + 24 + readU64 mem (strideAddr mem base k + 16)

/-- A state with `binaries_loaded = 0` in which the backend still holds the
    handle 4096 as registered. -/
def stateZeroCounter : State :=
  { State.start [] (fun _ => 0) with initialized := true, modules := [4096] }

/-- A fat binary at address 64 with the targets host, AMD and SPIR, in this
    order; the payloads are `[10, 11, 12]`, `[30, 31]` and `[20, 21, 22, 23]`. -/
def memHostAmdSpir : Memory :=
  memOfBytes 64
    (fatBinaryBytes 64 [⟨180, 3, hostTriple⟩, ⟨183, 2, amdTriple⟩, ⟨185, 4, SPIR_TRIPLE⟩]
      [10, 11, 12, 30, 31, 20, 21, 22, 23]) 0

/-- Whether every `__hipUnregisterFatBinary` call of the sequence is made
    while the backend is Initialized (a handle is held as registered by an
    Initialized backend only: teardown releases the backend's state, §4.4). -/
def unregistersWhileInitialized (d : FatbinDecls) : State → List Call → Bool
  | _, [] => true
  | s, c :: cs =>
    (match c with
      | .unregisterFatBinary _ => s.initialized
      | _ => true) &&
    (match step d s c with
      | .ret s1 _ => unregistersWhileInitialized d s1 cs
      | .abort _ _ => true)

/-! ## `__hipRegisterFatBinary` in a process that can fault

`__hipRegisterFatBinary` above reads a memory in which every address is
readable and builds strings that are never refused.  The definitions below
embed the same function in a process where a read of an address that is not
readable kills the process, and where building a `std::string` throws
`std::length_error` above `max_size()` and `std::bad_alloc` when the allocator
gives no storage.
-/

/-- What the process decides for a call: which addresses are readable, the
    value of `std::string::max_size()`, and whether the allocator supplies the
    storage of a string of a given length. -/
structure ProcessEnv where
  mapped : Nat → Bool
  max_size : Nat
  alloc_ok : Nat → Bool

/-- Whether the `n` bytes from address `a` on are all readable. -/
def ProcessEnv.readable (env : ProcessEnv) (a n : Nat) : Bool :=
  (List.range n).all (fun i => env.mapped (a + i))

/-- A `std::string` built from the `n` bytes at address `a`, by the
    constructor `std::string(ptr, n)` or by `assign(ptr, n)`: the length is
    checked against `max_size()`, storage is obtained, the bytes are copied. -/
def ProcessEnv.copyString (env : ProcessEnv) (mem : Memory) (a n : Nat) :
    Except Fatal (List Nat) :=
  if env.max_size < n then .error .LengthError
  else if env.alloc_ok n = false then .error .BadAlloc
  else if env.readable a n = false then .error .MemoryFault
  else .ok (loadBytes mem a n)

/-- How the descriptor loop ends in a process that can fault. -/
inductive Found where
  /-- `found = true` with `desc` at this descriptor -/
  | found (desc : Nat)
  /-- `found = false` after `numBundles` iterations -/
  | missing
  /-- the process ended inside the loop -/
  | died (f : Fatal)
  deriving DecidableEq, Repr

/-- The descriptor loop of `__hipRegisterFatBinary` in a process that can
    fault: `n` iterations are left, `desc` is the descriptor pointer.  An
    iteration builds `triple` from the 26 bytes at `desc->triple`, compares it,
    and on a mismatch reads `desc->tripleSize` for the increment. -/
def findDescIn (env : ProcessEnv) (mem : Memory) : Nat → Nat → Found
  | 0, _ => .missing
  | n + 1, desc =>
    match env.copyString mem (desc + 24) SPIR_TRIPLE.length with
    | .error f => .died f
    | .ok triple =>
      if string_compare triple (cstr SPIR_TRIPLE) = 0 then
        .found desc
      else if env.readable (desc + 16) 8 = false then
        .died .MemoryFault
      else
        findDescIn env mem n ((desc + 24 + readU64 mem (desc + 16)) % 2 ^ 64)

/-- `__hipRegisterFatBinary(data)` in a process that can fault; `p` is the
    address `new std::string` returns.  Every read is preceded by the test
    that its bytes are readable, in the order the function reads: `magic`,
    `version` (read only when `magic` is right), `binary`, the inner magic
    string, `numBundles`, the descriptors, `offset` and `size` of the selected
    descriptor, the payload. -/
def __hipRegisterFatBinaryIn (env : ProcessEnv) (d : FatbinDecls) (s : State) (mem : Memory)
    (data p : Nat) : Outcome Nat :=
  let s := HIPxxInitialize (s.emit .init_call)
  if env.readable data 4 = false then
    .abort s .MemoryFault
  else if readU32 mem data ≠ d.hipFatMAGIC2 then
    .abort s .InvalidContainer
  else if env.readable (data + 4) 4 = false then
    .abort s .MemoryFault
  else if readU32 mem (data + 4) ≠ 1 then
    .abort s .InvalidContainer
  else if env.readable (data + 8) 8 = false then
    .abort s .MemoryFault
  else
    let header := readU64 mem (data + 8)
    match env.copyString mem header d.magicLen with
    | .error f => .abort s f
    | .ok magic =>
      if string_compare magic (cstr d.CLANG_OFFLOAD_BUNDLER_MAGIC) ≠ 0 then
        .abort s .InvalidContainer
      else
        let s := { s with heap := (p, []) :: s.heap }
        if p = 0 then
          .abort s .OutOfMemory
        else if env.readable (header + d.numBundlesOff) 8 = false then
          .abort s .MemoryFault
        else
          match findDescIn env mem (readU64 mem (header + d.numBundlesOff))
              (header + d.descOff) with
          | .missing => .abort s .NoMatchingTarget
          | .died f => .abort s f
          | .found desc =>
            if env.readable desc 16 = false then
              .abort s .MemoryFault
            else
              let string_data := (header + readU64 mem desc) % 2 ^ 64
              let string_size := readU64 mem (desc + 8)
              match env.copyString mem string_data string_size with
              | .error f => .abort s f
              | .ok bytes =>
                let s := s.assign p bytes
                let s := Backend.register_module (s.emit (.register_module p)) p
                let s := { s with binaries_loaded := (s.binaries_loaded + 1) % 2 ^ 32 }
                .ret s p

/-- The 106 bytes of a fat binary at address 65536 (inner container at 65560)
    whose only descriptor (SPIR) declares a payload of 4 bytes at offset 1000. -/
def bytesFarPayload : List Nat := fatBinaryBytes 65536 [⟨1000, 4, SPIR_TRIPLE⟩] []

/-- Memory holding `bytesFarPayload` at address 65536, every other byte being
    170. -/
def memFarPayload : Memory := memOfBytes 65536 bytesFarPayload 170

/-- A process in which the page 65536..69631 is readable and nothing else,
    `max_size()` is `2^62 - 1` and the allocator always gives storage. -/
def envPage : ProcessEnv :=
  { mapped := fun a => decide (65536 ≤ a ∧ a < 69632),
    max_size := 2 ^ 62 - 1,
    alloc_ok := fun _ => true }

/-- A process in which only the 106 bytes of the buffer at 65536 are readable. -/
def envBufferOnly : ProcessEnv :=
  { mapped := fun a => decide (65536 ≤ a ∧ a < 65642),
    max_size := 2 ^ 62 - 1,
    alloc_ok := fun _ => true }

/-! ## Basic facts about memory reads and comparisons -/

theorem string_compare_eq_zero (s t : List Nat) : string_compare s t = 0 ↔ s = t := by
  induction s generalizing t with
  | nil => cases t <;> simp [string_compare]
  | cons a as ih =>
    cases t with
    | nil => simp [string_compare]
    | cons b bs =>
      simp only [string_compare, List.cons.injEq]
      by_cases h1 : a < b
      · simp [h1]; omega
      · by_cases h2 : b < a
        · simp [h1, h2]; omega
        · have hab : a = b := by omega
          simp [h1, h2, hab, ih]

theorem cstr_SPIR_TRIPLE : cstr SPIR_TRIPLE = SPIR_TRIPLE := by decide

theorem cstr_of_no_nul (lit : List Nat) (h : 0 ∉ lit) : cstr lit = lit := by
  unfold cstr
  rw [List.takeWhile_eq_self_iff]
  intro c hc
  have : c ≠ 0 := fun h0 => h (h0 ▸ hc)
  simpa using this

theorem cstr_length_le (lit : List Nat) : (cstr lit).length ≤ lit.length :=
  (List.takeWhile_prefix _).length_le

theorem cstr_eq_of_length (lit : List Nat) (h : (cstr lit).length = lit.length) :
    cstr lit = lit :=
  (List.takeWhile_prefix _).eq_of_length h

theorem loadBytes_length (mem : Memory) (a n : Nat) : (loadBytes mem a n).length = n := by
  induction n generalizing a with
  | zero => rfl
  | succ n ih => simp [loadBytes, ih]

theorem loadBytes_add (mem : Memory) (a m n : Nat) :
    loadBytes mem a (m + n) = loadBytes mem a m ++ loadBytes mem (a + m) n := by
  induction m generalizing a with
  | zero => simp [loadBytes]
  | succ m ih =>
    have h : m + 1 + n = (m + n) + 1 := by omega
    rw [h]
    simp only [loadBytes, List.cons_append, ih]
    have h2 : a + 1 + m = a + (m + 1) := by omega
    rw [h2]

theorem holds_append (mem : Memory) (a : Nat) (xs ys : List Nat) :
    holds mem a (xs ++ ys) ↔ holds mem a xs ∧ holds mem (a + xs.length) ys := by
  unfold holds
  rw [List.length_append, loadBytes_add]
  constructor
  · intro h
    exact List.append_inj h (loadBytes_length _ _ _)
  · rintro ⟨h1, h2⟩
    rw [h1, h2]

theorem leBytes_length (n v : Nat) : (leBytes n v).length = n := by
  induction n generalizing v with
  | zero => rfl
  | succ n ih => simp [leBytes, ih]

theorem leValue_leBytes (n v : Nat) : leValue (leBytes n v) = v % 256 ^ n := by
  induction n generalizing v with
  | zero => simp [leBytes, leValue, Nat.mod_one]
  | succ n ih =>
    simp only [leBytes, leValue, ih]
    rw [pow_succ, Nat.mul_comm (256 ^ n) 256, Nat.mod_mul]

theorem readU64_of_holds (mem : Memory) (a v : Nat) (hv : v < 2 ^ 64)
    (h : holds mem a (leBytes 8 v)) : readU64 mem a = v := by
  unfold holds at h
  rw [leBytes_length] at h
  unfold readU64
  rw [h, leValue_leBytes]
  exact Nat.mod_eq_of_lt (by norm_num at hv ⊢; exact hv)

/-! ## The descriptor walk over an encoded descriptor list -/

theorem encodeDesc_length (b : BundleDesc) : (encodeDesc b).length = 24 + b.triple.length := by
  simp only [encodeDesc, List.length_append, leBytes_length]

theorem encodeDescs_append (xs ys : List BundleDesc) :
    encodeDescs (xs ++ ys) = encodeDescs xs ++ encodeDescs ys := by
  induction xs with
  | nil => rfl
  | cons b bs ih => simp [encodeDescs, ih]

/-- What the fields of a descriptor read as when memory holds its wire form. -/
theorem holds_encodeDesc (mem : Memory) (a : Nat) (b : BundleDesc) (rest : List Nat)
    (h : holds mem a (encodeDesc b ++ rest)) :
    holds mem a (leBytes 8 b.offset) ∧ holds mem (a + 8) (leBytes 8 b.size) ∧
      holds mem (a + 16) (leBytes 8 b.triple.length) ∧ holds mem (a + 24) b.triple ∧
      holds mem (a + 24 + b.triple.length) rest := by
  unfold encodeDesc at h
  simp only [holds_append, leBytes_length, List.length_append] at h
  obtain ⟨⟨⟨⟨h1, h2⟩, h3⟩, h4⟩, h5⟩ := h
  have e1 : a + (8 + 8) = a + 16 := by omega
  have e2 : a + (8 + 8 + 8) = a + 24 := by omega
  have e3 : a + (8 + 8 + 8 + b.triple.length) = a + 24 + b.triple.length := by omega
  rw [e1] at h3
  rw [e2] at h4
  rw [e3] at h5
  exact ⟨h1, h2, h3, h4, h5⟩

/-- The comparison of the loop, as an equation between byte sequences. -/
theorem triple_matches_iff (mem : Memory) (desc : Nat) :
    string_compare (loadBytes mem (desc + 24) SPIR_TRIPLE.length) (cstr SPIR_TRIPLE) = 0 ↔
      loadBytes mem (desc + 24) SPIR_TRIPLE.length = SPIR_TRIPLE := by
  rw [string_compare_eq_zero, cstr_SPIR_TRIPLE]

/-- The loop passes over leading descriptors that do not match. -/
theorem findDesc_skip (mem : Memory) (pre : List BundleDesc) (rest : List Nat) (desc n : Nat)
    (hmem : holds mem desc (encodeDescs pre ++ rest))
    (hspace : desc + (encodeDescs pre).length < 2 ^ 64)
    (hpre : ∀ j, j < pre.length →
      loadBytes mem (descAddr desc pre j + 24) SPIR_TRIPLE.length ≠ SPIR_TRIPLE) :
    findDesc mem (pre.length + n) desc = findDesc mem n (desc + (encodeDescs pre).length) := by
  induction pre generalizing desc with
  | nil => simp [encodeDescs]
  | cons b bs ih =>
    have hlen : (b :: bs).length + n = (bs.length + n) + 1 := by simp; omega
    simp only [encodeDescs, List.length_append, encodeDesc_length] at hspace
    simp only [encodeDescs, List.append_assoc] at hmem
    obtain ⟨-, -, h3, -, h5⟩ := holds_encodeDesc mem desc b _ hmem
    have hts : readU64 mem (desc + 16) = b.triple.length :=
      readU64_of_holds mem _ _ (by omega) h3
    have h0 := hpre 0 (by simp)
    simp only [descAddr] at h0
    rw [hlen, findDesc, if_neg (by rw [triple_matches_iff]; exact h0), hts,
      Nat.mod_eq_of_lt (by omega), ih (desc + 24 + b.triple.length) h5 (by omega)]
    · simp only [encodeDescs, List.length_append, encodeDesc_length]
      congr 1
      omega
    · intro j hj
      have := hpre (j + 1) (by simpa using hj)
      simpa only [descAddr] using this

/-- Closed form of `descAddr`: the descriptors before `k` are skipped whole. -/
theorem descAddr_eq (base : Nat) (bs : List BundleDesc) (k : Nat) :
    descAddr base bs k = base + (encodeDescs (bs.take k)).length := by
  induction bs generalizing base k with
  | nil => cases k <;> simp [descAddr, encodeDescs]
  | cons b bs ih =>
    cases k with
    | zero => simp [descAddr, encodeDescs]
    | succ k =>
      simp only [descAddr, ih, List.take_succ_cons, encodeDescs, List.length_append,
        encodeDesc_length]
      omega

/-- The loop stops at the first descriptor that matches. -/
theorem findDesc_found (mem : Memory) (pre : List BundleDesc) (rest : List Nat) (desc n : Nat)
    (hmem : holds mem desc (encodeDescs pre ++ rest))
    (hspace : desc + (encodeDescs pre).length < 2 ^ 64)
    (hpre : ∀ j, j < pre.length →
      loadBytes mem (descAddr desc pre j + 24) SPIR_TRIPLE.length ≠ SPIR_TRIPLE)
    (hhit : loadBytes mem (desc + (encodeDescs pre).length + 24) SPIR_TRIPLE.length =
      SPIR_TRIPLE) :
    findDesc mem (pre.length + (n + 1)) desc = some (desc + (encodeDescs pre).length) := by
  rw [findDesc_skip mem pre rest desc (n + 1) hmem hspace hpre, findDesc,
    if_pos (by rw [triple_matches_iff]; exact hhit)]

/-- The loop finds nothing when no descriptor of the list matches. -/
theorem findDesc_none (mem : Memory) (ds : List BundleDesc) (rest : List Nat) (desc : Nat)
    (hmem : holds mem desc (encodeDescs ds ++ rest))
    (hspace : desc + (encodeDescs ds).length < 2 ^ 64)
    (hno : ∀ j, j < ds.length →
      loadBytes mem (descAddr desc ds j + 24) SPIR_TRIPLE.length ≠ SPIR_TRIPLE) :
    findDesc mem ds.length desc = none := by
  have h := findDesc_skip mem ds rest desc 0 hmem hspace hno
  simpa [findDesc] using h

/-! ## `__hipRegisterFatBinary` -/

theorem entered_modules (s : State) : (entered s).modules = s.modules := by
  unfold entered HIPxxInitialize State.emit
  split <;> rfl

theorem entered_binaries_loaded (s : State) :
    (entered s).binaries_loaded = s.binaries_loaded := by
  unfold entered HIPxxInitialize State.emit
  split <;> rfl

theorem entered_heap (s : State) : (entered s).heap = s.heap := by
  unfold entered HIPxxInitialize State.emit
  split <;> rfl

theorem entered_initialized (s : State) : (entered s).initialized = true := by
  unfold entered HIPxxInitialize State.emit
  split
  · assumption
  · rfl

theorem entered_trace (s : State) :
    (entered s).trace =
      s.trace ++ [.init_call] ++ (if s.initialized then [] else [.init_effect]) := by
  unfold entered HIPxxInitialize State.emit
  cases h : s.initialized <;> simp [h]

/-- The inner magic check passes when the inner container starts with the
    characters of a NUL-free magic literal. -/
theorem inner_magic_ok (d : FatbinDecls) (mem : Memory) (header : Nat)
    (hnul : 0 ∉ d.CLANG_OFFLOAD_BUNDLER_MAGIC)
    (hinner : holds mem header d.CLANG_OFFLOAD_BUNDLER_MAGIC) :
    string_compare (loadBytes mem header d.magicLen) (cstr d.CLANG_OFFLOAD_BUNDLER_MAGIC) = 0 := by
  rw [string_compare_eq_zero, cstr_of_no_nul _ hnul]
  exact hinner

/-- The inner magic check fails when the inner container does not start with
    the characters of the magic literal. -/
theorem inner_magic_bad (d : FatbinDecls) (mem : Memory) (header : Nat)
    (hinner : ¬ holds mem header d.CLANG_OFFLOAD_BUNDLER_MAGIC) :
    string_compare (loadBytes mem header d.magicLen) (cstr d.CLANG_OFFLOAD_BUNDLER_MAGIC) ≠ 0 := by
  rw [Ne, string_compare_eq_zero]
  intro h
  apply hinner
  have hl : (cstr d.CLANG_OFFLOAD_BUNDLER_MAGIC).length = d.CLANG_OFFLOAD_BUNDLER_MAGIC.length := by
    rw [← h, loadBytes_length]
    rfl
  rw [cstr_eq_of_length _ hl] at h
  exact h

/-- A call whose checks pass and whose loop stops at `desc` returns the handle
    `p`; the module holds the `size` bytes at `header + offset` (modulo 2^64). -/
theorem register_of_findDesc (d : FatbinDecls) (s : State) (mem : Memory)
    (data p header desc : Nat)
    (hmagic : readU32 mem data = d.hipFatMAGIC2) (hversion : readU32 mem (data + 4) = 1)
    (hbinary : readU64 mem (data + 8) = header)
    (hinner : string_compare (loadBytes mem header d.magicLen)
      (cstr d.CLANG_OFFLOAD_BUNDLER_MAGIC) = 0)
    (hp : p ≠ 0)
    (hfind : findDesc mem (readU64 mem (header + d.numBundlesOff)) (header + d.descOff) =
      some desc) :
    (__hipRegisterFatBinary d s mem data p).value = some p ∧
    (__hipRegisterFatBinary d s mem data p).state.heap.lookup p =
      some (loadBytes mem ((header + readU64 mem desc) % 2 ^ 64) (readU64 mem (desc + 8))) ∧
    (__hipRegisterFatBinary d s mem data p).state.trace =
      (entered s).trace ++ [.register_module p] ∧
    (__hipRegisterFatBinary d s mem data p).state.modules = p :: s.modules ∧
    (__hipRegisterFatBinary d s mem data p).state.binaries_loaded =
      (s.binaries_loaded + 1) % 2 ^ 32 ∧
    (__hipRegisterFatBinary d s mem data p).state.initialized = true := by
  have he : HIPxxInitialize (s.emit .init_call) = entered s := rfl
  simp only [__hipRegisterFatBinary, hmagic, hversion, hbinary, hinner, hp, hfind, he,
    ne_eq, not_true_eq_false, or_self, if_false, Outcome.value, Outcome.state]
  simp only [Backend.register_module, State.emit, State.assign, List.map_cons, if_true,
    List.lookup_cons, beq_self_eq_true, entered_initialized, entered_modules,
    entered_binaries_loaded, and_self]

/-- C1 (amended): for a bundle with valid outer magic, version 1 and valid inner
    magic whose descriptor list is `pre ++ B :: post` (so with `B` anywhere among
    other targets), where `B` carries the identifier `SPIR_TRIPLE` and no
    descriptor before `B` shows the 26 target bytes at its identifier field,
    `__hipRegisterFatBinary` returns the handle `p`, hands exactly `p` to
    `Backend->register_module`, and the module holds exactly the `B.size` bytes
    at `header + B.offset`. -/
theorem register_selects_target_payload (d : FatbinDecls) (s : State) (mem : Memory)
    (data p header : Nat) (pre post : List BundleDesc) (B : BundleDesc)
    (hmagic : readU32 mem data = d.hipFatMAGIC2) (hversion : readU32 mem (data + 4) = 1)
    (hbinary : readU64 mem (data + 8) = header)
    (hnul : 0 ∉ d.CLANG_OFFLOAD_BUNDLER_MAGIC)
    (hinner : holds mem header d.CLANG_OFFLOAD_BUNDLER_MAGIC)
    (hp : p ≠ 0)
    (hnum : readU64 mem (header + d.numBundlesOff) = (pre ++ B :: post).length)
    (hdescs : holds mem (header + d.descOff) (encodeDescs (pre ++ B :: post)))
    (hspace : header + d.descOff + (encodeDescs (pre ++ B :: post)).length < 2 ^ 64)
    (hB : B.triple = SPIR_TRIPLE)
    (hoffset : header + B.offset < 2 ^ 64) (hsize : B.size < 2 ^ 64)
    (hpre : ∀ j, j < pre.length →
      loadBytes mem (descAddr (header + d.descOff) pre j + 24) SPIR_TRIPLE.length ≠
        SPIR_TRIPLE) :
    (__hipRegisterFatBinary d s mem data p).value = some p ∧
    (__hipRegisterFatBinary d s mem data p).state.heap.lookup p =
      some (loadBytes mem (header + B.offset) B.size) ∧
    (__hipRegisterFatBinary d s mem data p).state.trace =
      (entered s).trace ++ [.register_module p] := by
  have henc : encodeDescs (pre ++ B :: post) =
      encodeDescs pre ++ (encodeDesc B ++ encodeDescs post) := by
    rw [encodeDescs_append]; rfl
  rw [henc] at hdescs hspace
  simp only [List.length_append, encodeDesc_length] at hspace
  have hB2 := (holds_append mem _ _ _).1 hdescs
  obtain ⟨ho, hs, -, ht, -⟩ := holds_encodeDesc mem _ B _ hB2.2
  have hhit : loadBytes mem (header + d.descOff + (encodeDescs pre).length + 24)
      SPIR_TRIPLE.length = SPIR_TRIPLE := by
    unfold holds at ht
    rw [hB] at ht
    exact ht
  have hfind := findDesc_found mem pre _ (header + d.descOff) post.length hdescs (by omega)
    hpre hhit
  have hn : (pre ++ B :: post).length = pre.length + (post.length + 1) := by simp
  rw [← hn, ← hnum] at hfind
  have h := register_of_findDesc d s mem data p header _ hmagic hversion hbinary
    (inner_magic_ok d mem header hnul hinner) hp hfind
  rw [readU64_of_holds mem _ B.offset (by omega) ho, readU64_of_holds mem _ B.size hsize hs,
    Nat.mod_eq_of_lt hoffset] at h
  exact ⟨h.1, h.2.1, h.2.2.1⟩

/-- Instance of `register_selects_target_payload`: host, SPIR and AMD targets
    with SPIR in the middle; the module is the SPIR payload `[20, 21, 22, 23]`. -/
theorem register_selects_target_payload_witness :
    (__hipRegisterFatBinary hipDecls (State.start [] (fun _ => 0)) memHostSpirAmd 64 4096).value
      = some 4096 ∧
    (__hipRegisterFatBinary hipDecls (State.start [] (fun _ => 0)) memHostSpirAmd 64
      4096).state.heap.lookup 4096 = some [20, 21, 22, 23] ∧
    (__hipRegisterFatBinary hipDecls (State.start [] (fun _ => 0)) memHostSpirAmd 64
      4096).state.trace = [.init_call, .init_effect, .register_module 4096] :=
  register_selects_target_payload hipDecls (State.start [] (fun _ => 0)) memHostSpirAmd 64 4096
    88 [⟨180, 3, hostTriple⟩] [⟨187, 2, amdTriple⟩] ⟨183, 4, SPIR_TRIPLE⟩
    (by decide) (by decide) (by decide) (by decide) (by decide) (by decide) (by decide)
    (by decide) (by decide) (by decide) (by decide) (by decide) (by decide)

/-- C1, refuted as stated: a bundle with valid magics and the three targets
    `"hip-spir64-unknown-unknow"`, `SPIR_TRIPLE` and `"hip-amdgcn-amd-amdhsa"`,
    whose payloads are `[10, 11, 12]`, `[20, 21, 22, 23]` and `[30, 31]`.  The
    SPIR payload sits at offset 366 = 0x16e, so the byte after the first
    identifier is 0x6e = 'n', the 26 bytes at the first identifier field spell
    the target, and the module is the first payload, not the SPIR one. -/
theorem register_selects_target_payload_counterexample :
    readU32 memShortSpirAmd 64 = hipDecls.hipFatMAGIC2 ∧
    readU32 memShortSpirAmd (64 + 4) = 1 ∧
    readU64 memShortSpirAmd (64 + 8) = 88 ∧
    holds memShortSpirAmd 88 hipDecls.CLANG_OFFLOAD_BUNDLER_MAGIC ∧
    readU64 memShortSpirAmd (88 + hipDecls.numBundlesOff) = 3 ∧
    holds memShortSpirAmd (88 + hipDecls.descOff) (encodeDescs descsShortSpirAmd) ∧
    descsShortSpirAmd.map (fun b => b.triple) = [shortTriple, SPIR_TRIPLE, amdTriple] ∧
    descsShortSpirAmd.map (fun b => loadBytes memShortSpirAmd (88 + b.offset) b.size) =
      [[10, 11, 12], [20, 21, 22, 23], [30, 31]] ∧
    (__hipRegisterFatBinary hipDecls (State.start [] (fun _ => 0)) memShortSpirAmd 64
      4096).value = some 4096 ∧
    (__hipRegisterFatBinary hipDecls (State.start [] (fun _ => 0)) memShortSpirAmd 64
      4096).state.heap.lookup 4096 = some [10, 11, 12] := by
  decide

/-- C2: a buffer whose outer magic is not `__hipFatMAGIC2`, or whose version is
    not 1, or whose inner container does not start with the characters of
    `CLANG_OFFLOAD_BUNDLER_MAGIC`, makes `__hipRegisterFatBinary` abort as
    InvalidContainer in the state reached right after `HIPxxInitialize()`: no
    module is created or registered, whatever the rest of memory holds. -/
theorem register_rejects_invalid_magic (d : FatbinDecls) (s : State) (mem : Memory)
    (data p : Nat)
    (hbad : readU32 mem data ≠ d.hipFatMAGIC2 ∨ readU32 mem (data + 4) ≠ 1 ∨
      ¬ holds mem (readU64 mem (data + 8)) d.CLANG_OFFLOAD_BUNDLER_MAGIC) :
    __hipRegisterFatBinary d s mem data p = .abort (entered s) .InvalidContainer := by
  by_cases houter : readU32 mem data ≠ d.hipFatMAGIC2 ∨ readU32 mem (data + 4) ≠ 1
  · unfold __hipRegisterFatBinary
    dsimp only
    rw [if_pos houter]
    rfl
  · have hin : ¬ holds mem (readU64 mem (data + 8)) d.CLANG_OFFLOAD_BUNDLER_MAGIC := by
      rcases hbad with h | h | h
      · exact absurd (Or.inl h) houter
      · exact absurd (Or.inr h) houter
      · exact h
    have hin2 := inner_magic_bad d mem _ hin
    unfold __hipRegisterFatBinary
    dsimp only
    rw [if_neg houter, if_pos hin2]
    rfl

/-- Instance of `register_rejects_invalid_magic`: a buffer of zero bytes. -/
theorem register_rejects_invalid_magic_witness :
    __hipRegisterFatBinary hipDecls (State.start [] (fun _ => 0)) (fun _ => 0) 64 4096 =
      .abort (entered (State.start [] (fun _ => 0))) .InvalidContainer :=
  register_rejects_invalid_magic hipDecls (State.start [] (fun _ => 0)) (fun _ => 0) 64 4096
    (by decide)

/-- C3 (amended): for a bundle with valid outer and inner magic whose
    descriptor list `ds` (possibly empty) has no descriptor showing the 26
    target bytes at its identifier field, `__hipRegisterFatBinary` aborts as
    NoMatchingTarget; `Backend->register_module` has not been called, the
    registry and `binaries_loaded` are unchanged. -/
theorem register_aborts_without_target (d : FatbinDecls) (s : State) (mem : Memory)
    (data p header : Nat) (ds : List BundleDesc)
    (hmagic : readU32 mem data = d.hipFatMAGIC2) (hversion : readU32 mem (data + 4) = 1)
    (hbinary : readU64 mem (data + 8) = header)
    (hnul : 0 ∉ d.CLANG_OFFLOAD_BUNDLER_MAGIC)
    (hinner : holds mem header d.CLANG_OFFLOAD_BUNDLER_MAGIC)
    (hp : p ≠ 0)
    (hnum : readU64 mem (header + d.numBundlesOff) = ds.length)
    (hdescs : holds mem (header + d.descOff) (encodeDescs ds))
    (hspace : header + d.descOff + (encodeDescs ds).length < 2 ^ 64)
    (hno : ∀ j, j < ds.length →
      loadBytes mem (descAddr (header + d.descOff) ds j + 24) SPIR_TRIPLE.length ≠
        SPIR_TRIPLE) :
    (__hipRegisterFatBinary d s mem data p).fatal = some .NoMatchingTarget ∧
    (__hipRegisterFatBinary d s mem data p).state.trace = (entered s).trace ∧
    (__hipRegisterFatBinary d s mem data p).state.modules = s.modules ∧
    (__hipRegisterFatBinary d s mem data p).state.binaries_loaded = s.binaries_loaded := by
  have hfind : findDesc mem (readU64 mem (header + d.numBundlesOff)) (header + d.descOff) =
      none := by
    rw [hnum]
    exact findDesc_none mem ds [] _ (by simpa using hdescs) hspace hno
  have he : HIPxxInitialize (s.emit .init_call) = entered s := rfl
  simp only [__hipRegisterFatBinary, hmagic, hversion, hbinary,
    inner_magic_ok d mem header hnul hinner, hp, hfind, he,
    ne_eq, not_true_eq_false, or_self, if_false, Outcome.fatal, Outcome.state,
    entered_modules, entered_binaries_loaded, and_self]

/-- Instance of `register_aborts_without_target`: a bundle with the targets
    host and AMD only. -/
theorem register_aborts_without_target_witness :
    (__hipRegisterFatBinary hipDecls (State.start [] (fun _ => 0)) memHostAmd 64 4096).fatal =
      some .NoMatchingTarget ∧
    (__hipRegisterFatBinary hipDecls (State.start [] (fun _ => 0)) memHostAmd 64
      4096).state.trace = (entered (State.start [] (fun _ => 0))).trace ∧
    (__hipRegisterFatBinary hipDecls (State.start [] (fun _ => 0)) memHostAmd 64
      4096).state.modules = [] ∧
    (__hipRegisterFatBinary hipDecls (State.start [] (fun _ => 0)) memHostAmd 64
      4096).state.binaries_loaded = 0 :=
  register_aborts_without_target hipDecls (State.start [] (fun _ => 0)) memHostAmd 64 4096 88
    [⟨130, 3, hostTriple⟩, ⟨133, 2, amdTriple⟩]
    (by decide) (by decide) (by decide) (by decide) (by decide) (by decide) (by decide)
    (by decide) (by decide) (by decide)

/-- C3, refuted as stated: a bundle with valid magics and the two targets
    `"hip-spir64-unknown-unknow"` and `"host-x86_64-unknown-linux-gnu"`, neither
    of which is the target or begins with it.  The second payload sits at
    offset 366 = 0x16e, so the 26 bytes at the first identifier field spell the
    target: the call returns, registers the module and raises the counter. -/
theorem register_aborts_without_target_counterexample :
    readU32 memShortHost 64 = hipDecls.hipFatMAGIC2 ∧
    readU32 memShortHost (64 + 4) = 1 ∧
    readU64 memShortHost (64 + 8) = 88 ∧
    holds memShortHost 88 hipDecls.CLANG_OFFLOAD_BUNDLER_MAGIC ∧
    readU64 memShortHost (88 + hipDecls.numBundlesOff) = 2 ∧
    holds memShortHost (88 + hipDecls.descOff) (encodeDescs descsShortHost) ∧
    descsShortHost.map (fun b => b.triple) = [shortTriple, hostTriple] ∧
    (∀ b ∈ descsShortHost, b.triple.take SPIR_TRIPLE.length ≠ SPIR_TRIPLE) ∧
    (__hipRegisterFatBinary hipDecls (State.start [] (fun _ => 0)) memShortHost 64
      4096).returned = true ∧
    (__hipRegisterFatBinary hipDecls (State.start [] (fun _ => 0)) memShortHost 64
      4096).state.trace = [.init_call, .init_effect, .register_module 4096] ∧
    (__hipRegisterFatBinary hipDecls (State.start [] (fun _ => 0)) memShortHost 64
      4096).state.binaries_loaded = 1 := by
  decide

/-! ## The payload copy: no bounds check -/

theorem copyString_ok (env : ProcessEnv) (mem : Memory) (a n : Nat)
    (hmax : n ≤ env.max_size) (halloc : env.alloc_ok n = true)
    (hread : env.readable a n = true) :
    env.copyString mem a n = .ok (loadBytes mem a n) := by
  unfold ProcessEnv.copyString
  rw [if_neg (by omega), if_neg (by rw [halloc]; decide), if_neg (by rw [hread]; decide)]

theorem copyString_length_error (env : ProcessEnv) (mem : Memory) (a n : Nat)
    (hmax : env.max_size < n) : env.copyString mem a n = .error .LengthError := by
  unfold ProcessEnv.copyString
  rw [if_pos hmax]

theorem copyString_bad_alloc (env : ProcessEnv) (mem : Memory) (a n : Nat)
    (hmax : n ≤ env.max_size) (halloc : env.alloc_ok n = false) :
    env.copyString mem a n = .error .BadAlloc := by
  unfold ProcessEnv.copyString
  rw [if_neg (by omega), if_pos halloc]

theorem copyString_fault (env : ProcessEnv) (mem : Memory) (a n : Nat)
    (hmax : n ≤ env.max_size) (halloc : env.alloc_ok n = true)
    (hread : env.readable a n = false) :
    env.copyString mem a n = .error .MemoryFault := by
  unfold ProcessEnv.copyString
  rw [if_neg (by omega), if_neg (by rw [halloc]; decide), if_pos hread]

/-- The call up to the payload copy, when every earlier read succeeds, the
    checks pass and the loop selects `desc`: what is left is the copy. -/
theorem registerIn_of_found (env : ProcessEnv) (d : FatbinDecls) (s : State) (mem : Memory)
    (data p header desc : Nat)
    (hr1 : env.readable data 4 = true) (hmagic : readU32 mem data = d.hipFatMAGIC2)
    (hr2 : env.readable (data + 4) 4 = true) (hversion : readU32 mem (data + 4) = 1)
    (hr3 : env.readable (data + 8) 8 = true) (hbinary : readU64 mem (data + 8) = header)
    (hmaxm : d.magicLen ≤ env.max_size) (hallocm : env.alloc_ok d.magicLen = true)
    (hrm : env.readable header d.magicLen = true)
    (hnul : 0 ∉ d.CLANG_OFFLOAD_BUNDLER_MAGIC)
    (hinner : holds mem header d.CLANG_OFFLOAD_BUNDLER_MAGIC)
    (hp : p ≠ 0)
    (hr4 : env.readable (header + d.numBundlesOff) 8 = true)
    (hfind : findDescIn env mem (readU64 mem (header + d.numBundlesOff))
      (header + d.descOff) = .found desc)
    (hr5 : env.readable desc 16 = true) :
    (∀ bytes, env.copyString mem ((header + readU64 mem desc) % 2 ^ 64)
        (readU64 mem (desc + 8)) = .ok bytes →
      (__hipRegisterFatBinaryIn env d s mem data p).value = some p ∧
      (__hipRegisterFatBinaryIn env d s mem data p).state.heap.lookup p = some bytes ∧
      (__hipRegisterFatBinaryIn env d s mem data p).state.trace =
        (entered s).trace ++ [.register_module p] ∧
      (__hipRegisterFatBinaryIn env d s mem data p).state.modules = p :: s.modules) ∧
    (∀ f, env.copyString mem ((header + readU64 mem desc) % 2 ^ 64)
        (readU64 mem (desc + 8)) = .error f →
      (__hipRegisterFatBinaryIn env d s mem data p).fatal = some f ∧
      (__hipRegisterFatBinaryIn env d s mem data p).state.trace = (entered s).trace ∧
      (__hipRegisterFatBinaryIn env d s mem data p).state.modules = s.modules) := by
  have he : HIPxxInitialize (s.emit .init_call) = entered s := rfl
  have hcm := copyString_ok env mem header d.magicLen hmaxm hallocm hrm
  have hin := inner_magic_ok d mem header hnul hinner
  have hred : ∀ r, env.copyString mem ((header + readU64 mem desc) % 2 ^ 64)
      (readU64 mem (desc + 8)) = r →
      __hipRegisterFatBinaryIn env d s mem data p =
        match r with
        | .error f => .abort { entered s with heap := (p, []) :: (entered s).heap } f
        | .ok bytes =>
          .ret { Backend.register_module
                   (({ entered s with heap := (p, []) :: (entered s).heap }.assign p
                     bytes).emit (.register_module p)) p with
                 binaries_loaded :=
                   ((Backend.register_module
                     (({ entered s with heap := (p, []) :: (entered s).heap }.assign p
                       bytes).emit (.register_module p)) p).binaries_loaded + 1) % 2 ^ 32 }
            p := by
    intro r hr
    unfold __hipRegisterFatBinaryIn
    dsimp only
    rw [he, if_neg (by rw [hr1]; decide), if_neg (by rw [hmagic]; exact fun h => h rfl),
      if_neg (by rw [hr2]; decide), if_neg (by rw [hversion]; exact fun h => h rfl),
      if_neg (by rw [hr3]; decide), hbinary, hcm]
    dsimp only
    rw [if_neg (by rw [hin]; exact fun h => h rfl), if_neg hp, if_neg (by rw [hr4]; decide),
      hfind]
    dsimp only
    rw [if_neg (by rw [hr5]; decide), hr]
  constructor
  · intro bytes hcs
    rw [hred _ hcs]
    simp only [Outcome.value, Outcome.state, Backend.register_module, State.emit, State.assign,
      List.map_cons, if_true, List.lookup_cons, beq_self_eq_true, entered_modules, and_self]
  · intro f hcs
    rw [hred _ hcs]
    simp only [Outcome.fatal, Outcome.state, entered_modules, and_self]

theorem copyString_error_kind (env : ProcessEnv) (mem : Memory) (a n : Nat) (f : Fatal)
    (h : env.copyString mem a n = .error f) :
    f = .LengthError ∨ f = .BadAlloc ∨ f = .MemoryFault := by
  unfold ProcessEnv.copyString at h
  split at h
  · cases h; exact Or.inl rfl
  · split at h
    · cases h; exact Or.inr (Or.inl rfl)
    · split at h
      · cases h; exact Or.inr (Or.inr rfl)
      · cases h

/-- C4 (amended): `__hipRegisterFatBinary` receives no buffer length and
    validates no bound.  With valid magics and a selected descriptor `desc`,
    the call never ends as InvalidContainer; when the `size` bytes at
    `header + offset` (modulo 2^64) are readable, `size` is at most
    `max_size()` and storage is available, the call returns a module made of
    exactly those bytes, wherever the slice lies; otherwise the process ends
    in the copy, by `std::length_error`, `std::bad_alloc` or a memory fault,
    and no module has been registered. -/
theorem register_copies_unchecked_slice (env : ProcessEnv) (d : FatbinDecls) (s : State)
    (mem : Memory) (data p header desc src size : Nat)
    (hr1 : env.readable data 4 = true) (hmagic : readU32 mem data = d.hipFatMAGIC2)
    (hr2 : env.readable (data + 4) 4 = true) (hversion : readU32 mem (data + 4) = 1)
    (hr3 : env.readable (data + 8) 8 = true) (hbinary : readU64 mem (data + 8) = header)
    (hmaxm : d.magicLen ≤ env.max_size) (hallocm : env.alloc_ok d.magicLen = true)
    (hrm : env.readable header d.magicLen = true)
    (hnul : 0 ∉ d.CLANG_OFFLOAD_BUNDLER_MAGIC)
    (hinner : holds mem header d.CLANG_OFFLOAD_BUNDLER_MAGIC)
    (hp : p ≠ 0)
    (hr4 : env.readable (header + d.numBundlesOff) 8 = true)
    (hfind : findDescIn env mem (readU64 mem (header + d.numBundlesOff))
      (header + d.descOff) = .found desc)
    (hr5 : env.readable desc 16 = true)
    (hsrc : (header + readU64 mem desc) % 2 ^ 64 = src)
    (hsize : readU64 mem (desc + 8) = size) :
    (__hipRegisterFatBinaryIn env d s mem data p).fatal ≠ some .InvalidContainer ∧
    (size ≤ env.max_size → env.alloc_ok size = true → env.readable src size = true →
      (__hipRegisterFatBinaryIn env d s mem data p).value = some p ∧
      (__hipRegisterFatBinaryIn env d s mem data p).state.heap.lookup p =
        some (loadBytes mem src size) ∧
      (__hipRegisterFatBinaryIn env d s mem data p).state.trace =
        (entered s).trace ++ [.register_module p]) ∧
    (env.max_size < size →
      (__hipRegisterFatBinaryIn env d s mem data p).fatal = some .LengthError) ∧
    (size ≤ env.max_size → env.alloc_ok size = false →
      (__hipRegisterFatBinaryIn env d s mem data p).fatal = some .BadAlloc) ∧
    (size ≤ env.max_size → env.alloc_ok size = true → env.readable src size = false →
      (__hipRegisterFatBinaryIn env d s mem data p).fatal = some .MemoryFault) ∧
    ((__hipRegisterFatBinaryIn env d s mem data p).returned = false →
      (__hipRegisterFatBinaryIn env d s mem data p).state.trace = (entered s).trace ∧
      (__hipRegisterFatBinaryIn env d s mem data p).state.modules = s.modules) := by
  obtain ⟨hok, herr⟩ := registerIn_of_found env d s mem data p header desc hr1 hmagic hr2
    hversion hr3 hbinary hmaxm hallocm hrm hnul hinner hp hr4 hfind hr5
  rw [hsrc, hsize] at hok herr
  refine ⟨?_, ?_, ?_, ?_, ?_, ?_⟩
  · cases hcs : env.copyString mem src size with
    | error f =>
      rw [(herr f hcs).1]
      rcases copyString_error_kind env mem src size f hcs with h | h | h <;> rw [h] <;> decide
    | ok bytes =>
      have hv := (hok bytes hcs).1
      intro hf
      cases hout : __hipRegisterFatBinaryIn env d s mem data p with
      | ret s1 a => rw [hout] at hf; cases hf
      | abort s1 f => rw [hout] at hv; cases hv
  · intro hmax halloc hread
    obtain ⟨h1, h2, h3, -⟩ := hok _ (copyString_ok env mem src size hmax halloc hread)
    exact ⟨h1, h2, h3⟩
  · intro hmax
    exact (herr _ (copyString_length_error env mem src size hmax)).1
  · intro hmax halloc
    exact (herr _ (copyString_bad_alloc env mem src size hmax halloc)).1
  · intro hmax halloc hread
    exact (herr _ (copyString_fault env mem src size hmax halloc hread)).1
  · intro hret
    cases hcs : env.copyString mem src size with
    | error f => exact (herr f hcs).2
    | ok bytes =>
      have hv := (hok bytes hcs).1
      cases hout : __hipRegisterFatBinaryIn env d s mem data p with
      | ret s1 a => rw [hout] at hret; cases hret
      | abort s1 f => rw [hout] at hv; cases hv

/-- Instance of `register_copies_unchecked_slice`: the buffer `bytesFarPayload`
    occupies addresses 65536 to 65641, the selected slice lies at 66560 to
    66563 in the same readable page, and the module is made of the four bytes
    found there. -/
theorem register_copies_unchecked_slice_witness :
    (__hipRegisterFatBinaryIn envPage hipDecls (State.start [] (fun _ => 0)) memFarPayload
      65536 131072).value = some 131072 ∧
    (__hipRegisterFatBinaryIn envPage hipDecls (State.start [] (fun _ => 0)) memFarPayload
      65536 131072).state.heap.lookup 131072 = some (loadBytes memFarPayload 66560 4) ∧
    (__hipRegisterFatBinaryIn envPage hipDecls (State.start [] (fun _ => 0)) memFarPayload
      65536 131072).state.trace =
      (entered (State.start [] (fun _ => 0))).trace ++ [.register_module 131072] :=
  (register_copies_unchecked_slice envPage hipDecls (State.start [] (fun _ => 0))
    memFarPayload 65536 131072 65560 65592 66560 4
    (by decide) (by decide) (by decide) (by decide) (by decide) (by decide) (by decide)
    (by decide) (by decide) (by decide) (by decide) (by decide) (by decide) (by decide)
    (by decide) (by decide) (by decide)).2.1 (by decide) (by decide) (by decide)

/-- C4, refuted as stated: the buffer is the 106 bytes `bytesFarPayload` at
    addresses 65536 to 65641 (valid magics, one SPIR descriptor declaring
    offset 1000 and size 4), so the slice at `65560 + 1000` is not inside the
    buffer.  In a process where the page of the buffer is readable the call
    returns a module made of the four bytes 170 lying outside the buffer; in a
    process where only the buffer is readable it ends by a memory fault, not
    as InvalidContainer. -/
theorem register_copies_unchecked_slice_counterexample :
    bytesFarPayload.length = 106 ∧
    holds memFarPayload 65536 bytesFarPayload ∧
    envPage.readable 65536 106 = true ∧
    readU32 memFarPayload 65536 = hipDecls.hipFatMAGIC2 ∧
    readU32 memFarPayload (65536 + 4) = 1 ∧
    readU64 memFarPayload (65536 + 8) = 65560 ∧
    holds memFarPayload 65560 hipDecls.CLANG_OFFLOAD_BUNDLER_MAGIC ∧
    readU64 memFarPayload (65560 + hipDecls.numBundlesOff) = 1 ∧
    holds memFarPayload (65560 + hipDecls.descOff) (encodeDescs [⟨1000, 4, SPIR_TRIPLE⟩]) ∧
    ¬ (65560 + 1000 + 4 ≤ 65536 + bytesFarPayload.length) ∧
    (__hipRegisterFatBinaryIn envPage hipDecls (State.start [] (fun _ => 0)) memFarPayload
      65536 131072).fatal = none ∧
    (__hipRegisterFatBinaryIn envPage hipDecls (State.start [] (fun _ => 0)) memFarPayload
      65536 131072).state.heap.lookup 131072 = some [170, 170, 170, 170] ∧
    (__hipRegisterFatBinaryIn envPage hipDecls (State.start [] (fun _ => 0)) memFarPayload
      65536 131072).state.trace = [.init_call, .init_effect, .register_module 131072] ∧
    (__hipRegisterFatBinaryIn envBufferOnly hipDecls (State.start [] (fun _ => 0))
      memFarPayload 65536 131072).fatal = some .MemoryFault := by
  decide

/-! ## The two embeddings agree in a process that never faults -/

theorem readable_of_mapped (env : ProcessEnv) (hmap : ∀ a, env.mapped a = true) (a n : Nat) :
    env.readable a n = true := by
  unfold ProcessEnv.readable
  rw [List.all_eq_true]
  intro i _
  exact hmap _

theorem loadBytes_lt (mem : Memory) (a n : Nat) : ∀ b ∈ loadBytes mem a n, b < 256 := by
  induction n generalizing a with
  | zero => intro b hb; cases hb
  | succ n ih =>
    intro b hb
    rw [loadBytes] at hb
    rcases List.mem_cons.1 hb with h | h
    · rw [h]; exact Nat.mod_lt _ (by norm_num)
    · exact ih _ b h

theorem leValue_lt (bs : List Nat) (h : ∀ b ∈ bs, b < 256) : leValue bs < 256 ^ bs.length := by
  induction bs with
  | nil => simp [leValue]
  | cons b bs ih =>
    have hb := h b (List.mem_cons_self _ _)
    have := ih (fun x hx => h x (List.mem_cons_of_mem _ hx))
    rw [leValue, List.length_cons, pow_succ]
    omega

theorem readU64_lt (mem : Memory) (a : Nat) : readU64 mem a < 2 ^ 64 := by
  have h := leValue_lt (loadBytes mem a 8) (loadBytes_lt mem a 8)
  rw [loadBytes_length] at h
  unfold readU64
  calc leValue (loadBytes mem a 8) < 256 ^ 8 := h
    _ = 2 ^ 64 := by norm_num

theorem copyString_total (env : ProcessEnv) (mem : Memory) (a n : Nat)
    (hmap : ∀ a, env.mapped a = true) (halloc : ∀ n, env.alloc_ok n = true)
    (hmax : n ≤ env.max_size) : env.copyString mem a n = .ok (loadBytes mem a n) :=
  copyString_ok env mem a n hmax (halloc n) (readable_of_mapped env hmap a n)

theorem findDescIn_eq_findDesc (env : ProcessEnv) (mem : Memory)
    (hmap : ∀ a, env.mapped a = true) (halloc : ∀ n, env.alloc_ok n = true)
    (hmax : SPIR_TRIPLE.length ≤ env.max_size) (n desc : Nat) :
    findDescIn env mem n desc =
      match findDesc mem n desc with
      | some d => .found d
      | none => .missing := by
  induction n generalizing desc with
  | zero => rfl
  | succ n ih =>
    rw [findDescIn, findDesc, copyString_total env mem _ _ hmap halloc hmax]
    dsimp only
    split
    · rfl
    · rw [if_neg (by rw [readable_of_mapped env hmap]; decide)]
      exact ih _

/-- In a process where every address is readable and no string is refused,
    the faulting embedding is `__hipRegisterFatBinary`. -/
theorem registerIn_eq_register (env : ProcessEnv) (d : FatbinDecls) (s : State) (mem : Memory)
    (data p : Nat)
    (hmap : ∀ a, env.mapped a = true) (halloc : ∀ n, env.alloc_ok n = true)
    (hmax : 2 ^ 64 ≤ env.max_size) (hlen : d.magicLen ≤ env.max_size) :
    __hipRegisterFatBinaryIn env d s mem data p = __hipRegisterFatBinary d s mem data p := by
  have hr : ∀ a n, ¬ env.readable a n = false := fun a n => by
    rw [readable_of_mapped env hmap]; decide
  have h26 : SPIR_TRIPLE.length ≤ env.max_size := by
    have : SPIR_TRIPLE.length = 26 := rfl
    rw [this]
    have : (26 : Nat) ≤ 2 ^ 64 := by norm_num
    omega
  unfold __hipRegisterFatBinaryIn __hipRegisterFatBinary
  dsimp only
  rw [if_neg (hr _ _)]
  by_cases h1 : readU32 mem data ≠ d.hipFatMAGIC2
  · rw [if_pos h1, if_pos (Or.inl h1)]
  · rw [if_neg h1, if_neg (hr _ _)]
    by_cases h2 : readU32 mem (data + 4) ≠ 1
    · rw [if_pos h2, if_pos (Or.inr h2)]
    · have h12 : ¬ (readU32 mem data ≠ d.hipFatMAGIC2 ∨ readU32 mem (data + 4) ≠ 1) :=
        fun h => h.elim h1 h2
      rw [if_neg h2, if_neg (hr _ _), if_neg h12,
        copyString_total env mem _ _ hmap halloc hlen]
      dsimp only
      by_cases h3 : string_compare (loadBytes mem (readU64 mem (data + 8)) d.magicLen)
          (cstr d.CLANG_OFFLOAD_BUNDLER_MAGIC) ≠ 0
      · rw [if_pos h3, if_pos h3]
      · rw [if_neg h3, if_neg h3]
        by_cases h4 : p = 0
        · rw [if_pos h4, if_pos h4]
        · rw [if_neg h4, if_neg h4, if_neg (hr _ _),
            findDescIn_eq_findDesc env mem hmap halloc h26]
          cases findDesc mem (readU64 mem (readU64 mem (data + 8) + d.numBundlesOff))
              (readU64 mem (data + 8) + d.descOff) with
          | none => rfl
          | some desc =>
            dsimp only
            rw [if_neg (hr _ _), copyString_total env mem _ _ hmap halloc
              (by have := readU64_lt mem (desc + 8); omega)]

/-! ## `__hipRegisterFunction` -/

theorem map_range_succ {α : Type} (g : Nat → α) (i n : Nat) :
    (List.range (n + 1)).map (fun k => g (i + k)) =
      g i :: (List.range n).map (fun k => g (i + 1 + k)) := by
  rw [List.range_succ_eq_map, List.map_cons, List.map_map]
  congr 1
  apply List.map_congr_left
  intro k _
  simp only [Function.comp, Nat.succ_eq_add_one]
  congr 1
  omega

/-- The device loop from position `i` on, when every device binds the symbol. -/
theorem registerOnDevices_all (module hostFunction : Nat) (deviceName : String)
    (devs : List Device) (s : State) (i : Nat)
    (hall : ∀ dev ∈ devs, dev.registerFunction module hostFunction deviceName = true) :
    registerOnDevices module hostFunction deviceName s i devs =
      .ret (s.emitAll ((List.range devs.length).map
        (fun k => Effect.registerFunction (i + k) module hostFunction deviceName))) () := by
  induction devs generalizing s i with
  | nil => simp [registerOnDevices, State.emitAll]
  | cons dev devs ih =>
    have hd := hall dev (List.mem_cons_self _ _)
    rw [registerOnDevices]
    simp only [hd, if_true]
    rw [ih _ _ (fun x hx => hall x (List.mem_cons_of_mem _ hx))]
    have hr := map_range_succ
      (fun k => Effect.registerFunction k module hostFunction deviceName) i devs.length
    simp only [State.emit, State.emitAll, List.length_cons, List.append_assoc,
      List.singleton_append]
    rw [hr]

/-- The device loop from position `i` on, when the devices `pre` bind the
    symbol and the next device does not. -/
theorem registerOnDevices_fail (module hostFunction : Nat) (deviceName : String)
    (pre : List Device) (dev : Device) (post : List Device) (s : State) (i : Nat)
    (hpre : ∀ x ∈ pre, x.registerFunction module hostFunction deviceName = true)
    (hdev : dev.registerFunction module hostFunction deviceName = false) :
    registerOnDevices module hostFunction deviceName s i (pre ++ dev :: post) =
      .abort (s.emitAll ((List.range (pre.length + 1)).map
        (fun k => Effect.registerFunction (i + k) module hostFunction deviceName)))
        .SymbolNotFound := by
  induction pre generalizing s i with
  | nil =>
    simp [registerOnDevices, hdev, State.emit, State.emitAll, List.range_succ]
  | cons x pre ih =>
    have hx := hpre x (List.mem_cons_self _ _)
    rw [List.cons_append, registerOnDevices]
    simp only [hx, if_true]
    rw [ih _ _ (fun y hy => hpre y (List.mem_cons_of_mem _ hy))]
    have hr := map_range_succ
      (fun k => Effect.registerFunction k module hostFunction deviceName) i (pre.length + 1)
    simp only [State.emit, State.emitAll, List.length_cons, List.append_assoc,
      List.singleton_append]
    rw [hr]

/-- C5: when every device of `Backend->get_devices()` binds the symbol,
    `__hipRegisterFunction` returns, and what it did after `HIPxxInitialize()`
    is exactly one `registerFunction(module, hostFunction, deviceName)` call per
    device, in device-list order, with the triple it was given: K calls for K
    devices (none for an empty list), and nothing else in the state changes. -/
theorem registerFunction_fans_out (s : State) (data hostFunction : Nat)
    (deviceFunction deviceName : String) (threadLimit tid bid blockDim gridDim wSize : Nat)
    (hall : ∀ dev ∈ (entered s).devices,
      dev.registerFunction data hostFunction deviceName = true) :
    __hipRegisterFunction s data hostFunction deviceFunction deviceName threadLimit tid bid
        blockDim gridDim wSize =
      .ret ((entered s).emitAll
        (bindCalls data hostFunction deviceName (entered s).devices.length)) () := by
  have h := registerOnDevices_all data hostFunction deviceName (entered s).devices (entered s)
    0 hall
  simp only [Nat.zero_add] at h
  exact h

/-- Instance of `registerFunction_fans_out`: three devices, symbol `"foo"`. -/
theorem registerFunction_fans_out_witness :
    __hipRegisterFunction (State.start [deviceAll, deviceFoo, deviceAll] (fun _ => 0)) 4096 7
        "foo" "foo" 0 0 0 0 0 0 =
      .ret ((entered (State.start [deviceAll, deviceFoo, deviceAll] (fun _ => 0))).emitAll
        (bindCalls 4096 7 "foo" 3)) () :=
  registerFunction_fans_out (State.start [deviceAll, deviceFoo, deviceAll] (fun _ => 0)) 4096 7
    "foo" "foo" 0 0 0 0 0 0 (by decide)

/-- C6: when the devices before position `j = pre.length` bind the symbol and
    device `j` does not, `__hipRegisterFunction` aborts as SymbolNotFound;
    after `HIPxxInitialize()` it has made exactly the bind calls on devices
    `0..j`, once each and in order, none on a later device, and nothing else
    (no call undoing a binding). -/
theorem registerFunction_aborts_at_first_missing (s : State) (data hostFunction : Nat)
    (deviceFunction deviceName : String) (threadLimit tid bid blockDim gridDim wSize : Nat)
    (pre : List Device) (dev : Device) (post : List Device)
    (hdevs : (entered s).devices = pre ++ dev :: post)
    (hpre : ∀ x ∈ pre, x.registerFunction data hostFunction deviceName = true)
    (hdev : dev.registerFunction data hostFunction deviceName = false) :
    __hipRegisterFunction s data hostFunction deviceFunction deviceName threadLimit tid bid
        blockDim gridDim wSize =
      .abort ((entered s).emitAll (bindCalls data hostFunction deviceName (pre.length + 1)))
        .SymbolNotFound := by
  have h := registerOnDevices_fail data hostFunction deviceName pre dev post (entered s) 0
    hpre hdev
  simp only [Nat.zero_add] at h
  rw [← hdevs] at h
  exact h

/-- Instance of `registerFunction_aborts_at_first_missing`: of three devices
    the second lacks `"bar"`; two bind calls are made. -/
theorem registerFunction_aborts_at_first_missing_witness :
    __hipRegisterFunction (State.start [deviceAll, deviceFoo, deviceAll] (fun _ => 0)) 4096 7
        "bar" "bar" 0 0 0 0 0 0 =
      .abort ((entered (State.start [deviceAll, deviceFoo, deviceAll] (fun _ => 0))).emitAll
        (bindCalls 4096 7 "bar" 2)) .SymbolNotFound :=
  registerFunction_aborts_at_first_missing
    (State.start [deviceAll, deviceFoo, deviceAll] (fun _ => 0)) 4096 7 "bar" "bar" 0 0 0 0 0 0
    [deviceAll] deviceFoo [deviceAll] (by rfl) (by decide) (by decide)

/-! ## Sequences of register and unregister calls -/

theorem register_ret (d : FatbinDecls) (s : State) (mem : Memory) (data p : Nat)
    (s1 : State) (a : Nat) (h : __hipRegisterFatBinary d s mem data p = .ret s1 a) :
    a = p ∧ s1.modules = p :: s.modules ∧
      s1.binaries_loaded = (s.binaries_loaded + 1) % 2 ^ 32 ∧ s1.initialized = true ∧
      s1.trace = (entered s).trace ++ [.register_module p] := by
  have he : HIPxxInitialize (s.emit .init_call) = entered s := rfl
  unfold __hipRegisterFatBinary at h
  dsimp only at h
  rw [he] at h
  split at h
  · cases h
  · split at h
    · cases h
    · split at h
      · cases h
      · split at h
        · cases h
        · cases h
          simp only [Backend.register_module, State.emit, State.assign, entered_initialized,
            entered_modules, entered_binaries_loaded, and_self]

theorem unregister_ret (s : State) (data : Nat) (s1 : State)
    (h : __hipUnregisterFatBinary s data = .ret s1 ()) :
    data ∈ s.modules ∧ s1.modules = s.modules.erase data ∧
      s1.binaries_loaded = (2 ^ 32 - 1 + s.binaries_loaded) % 2 ^ 32 ∧
      s1.initialized = (if s1.binaries_loaded = 0 then false else s.initialized) ∧
      s1.trace = s.trace ++ [.unregister_module data] ++
        (if s1.binaries_loaded = 0 then [.uninit_call] else []) ++ [.delete_module data] := by
  unfold __hipUnregisterFatBinary Backend.unregister_module at h
  dsimp only at h
  by_cases hm : data ∈ s.modules
  · simp only [State.emit, hm, if_true] at h
    by_cases hz : (2 ^ 32 - 1 + s.binaries_loaded) % 2 ^ 32 = 0
    · simp only [hz, if_true, HIPxxUninitialize, State.emit] at h
      cases h
      simp only [hz, if_true, List.append_assoc, and_self, hm]
    · simp only [hz, if_false] at h
      cases h
      simp only [hz, if_false, List.append_assoc, List.append_nil, and_self, hm]
  · simp only [State.emit, hm, if_false] at h
    cases h

theorem le_peakLoaded (n : Nat) (cs : List Call) : n ≤ peakLoaded n cs := by
  induction cs generalizing n with
  | nil => exact Nat.le_refl _
  | cons c cs ih =>
    cases c with
    | registerFatBinary mem data p => exact Nat.le_max_left _ _
    | unregisterFatBinary data => exact Nat.le_max_left _ _
    | registerFunction a b c e f g h i j k => exact ih n
    | setupArgument a b c => exact ih n
    | malloc a b => exact ih n

theorem count_after_register (s : State) (p : Nat) :
    ((entered s).trace ++ [Effect.register_module p]).count Effect.init_effect =
        s.trace.count Effect.init_effect + (if s.initialized then 0 else 1) ∧
      ((entered s).trace ++ [Effect.register_module p]).count Effect.uninit_call =
        s.trace.count Effect.uninit_call := by
  rw [entered_trace]
  cases s.initialized <;> simp [List.count_append, List.count_cons]

theorem count_after_unregister (t : List Effect) (data : Nat) (z : Prop) [Decidable z] :
    (t ++ [Effect.unregister_module data] ++ (if z then [Effect.uninit_call] else []) ++
        [Effect.delete_module data]).count Effect.init_effect = t.count Effect.init_effect ∧
      (t ++ [Effect.unregister_module data] ++ (if z then [Effect.uninit_call] else []) ++
        [Effect.delete_module data]).count Effect.uninit_call =
        t.count Effect.uninit_call + (if z then 1 else 0) := by
  by_cases hz : z <;> simp [hz, List.count_append, List.count_cons]

/-- What a sequence of successful register and unregister calls preserves,
    from any state in which `binaries_loaded` is the number of registered
    modules and the lifecycle agrees with it, as long as fewer than `2^32`
    modules are loaded at once. -/
theorem run_registry (d : FatbinDecls) (calls : List Call) (s0 s : State)
    (hreg : ∀ c ∈ calls, c.isRegistryCall = true)
    (hcount : s0.binaries_loaded = s0.modules.length)
    (hinit : s0.initialized = true ↔ 0 < s0.binaries_loaded)
    (hpeak : peakLoaded s0.modules.length calls < 2 ^ 32)
    (hrun : run d s0 calls = .ret s ()) :
    s.binaries_loaded = s.modules.length ∧
    (s.initialized = true ↔ 0 < s.binaries_loaded) ∧
    s.binaries_loaded + countUnregister calls = s0.binaries_loaded + countRegister calls ∧
    s.trace.count Effect.init_effect =
      s0.trace.count Effect.init_effect + leavesZero s0.modules.length calls ∧
    s.trace.count Effect.uninit_call =
      s0.trace.count Effect.uninit_call + returnsToZero s0.modules.length calls ∧
    leavesZero s0.modules.length calls + (if 0 < s0.binaries_loaded then 1 else 0) =
      returnsToZero s0.modules.length calls + (if 0 < s.binaries_loaded then 1 else 0) := by
  induction calls generalizing s0 with
  | nil =>
    simp only [run, Outcome.ret.injEq, and_true] at hrun
    subst hrun
    simp only [countUnregister, countRegister, leavesZero, returnsToZero, Nat.add_zero,
      and_self, and_true]
    exact ⟨hcount, hinit⟩
  | cons c cs ih =>
    have hcs : ∀ c ∈ cs, c.isRegistryCall = true := fun x hx =>
      hreg x (List.mem_cons_of_mem _ hx)
    have hc := hreg c (List.mem_cons_self _ _)
    cases c with
    | registerFatBinary mem data p =>
      simp only [run, step] at hrun
      cases hout : __hipRegisterFatBinary d s0 mem data p with
      | abort s1 f => rw [hout] at hrun; simp only [Outcome.discard] at hrun; cases hrun
      | ret s1 a =>
        rw [hout] at hrun
        simp only [Outcome.discard] at hrun
        obtain ⟨-, hm, hb, hi, ht⟩ := register_ret d s0 mem data p s1 a hout
        simp only [peakLoaded] at hpeak
        have hle := le_peakLoaded (s0.modules.length + 1) cs
        have hlen : s1.modules.length = s0.modules.length + 1 := by rw [hm]; rfl
        have hb1 : s1.binaries_loaded = s0.binaries_loaded + 1 := by
          rw [hb]; apply Nat.mod_eq_of_lt; omega
        have := ih s1 hcs (by omega) (by rw [hi]; simp [hb1]) (by rw [hlen]; omega) hrun
        obtain ⟨r1, r2, r3, r4, r5, r6⟩ := this
        obtain ⟨c1, c2⟩ := count_after_register s0 p
        rw [ht] at r4 r5
        rw [c1] at r4
        rw [c2] at r5
        rw [hlen] at r4 r5 r6
        refine ⟨r1, r2, ?_, ?_, ?_, ?_⟩
        · simp only [countUnregister, countRegister]; omega
        · simp only [leavesZero]
          have key : (if s0.initialized = true then 0 else 1) =
              (if s0.modules.length = 0 then 1 else 0) := by
            by_cases h0 : s0.initialized = true
            · have : 0 < s0.binaries_loaded := hinit.1 h0
              rw [if_pos h0, if_neg (by omega)]
            · have : ¬ 0 < s0.binaries_loaded := fun h => h0 (hinit.2 h)
              rw [if_neg h0, if_pos (by omega)]
          rw [r4, key]
          omega
        · simp only [returnsToZero]; exact r5
        · simp only [leavesZero, returnsToZero]
          rw [if_pos (by omega : 0 < s1.binaries_loaded)] at r6
          by_cases h0 : s0.modules.length = 0
          · rw [if_pos h0, if_neg (by omega)]; omega
          · rw [if_neg h0, if_pos (by omega)]; omega
    | unregisterFatBinary data =>
      simp only [run, step] at hrun
      cases hout : __hipUnregisterFatBinary s0 data with
      | abort s1 f => rw [hout] at hrun; cases hrun
      | ret s1 a =>
        rw [hout] at hrun
        simp only at hrun
        obtain ⟨hmem, hm, hb, hi, ht⟩ := unregister_ret s0 data s1 hout
        simp only [peakLoaded] at hpeak
        have hle := le_peakLoaded (s0.modules.length - 1) cs
        have hpos : 0 < s0.modules.length := List.length_pos_of_mem hmem
        have hlen : s1.modules.length = s0.modules.length - 1 := by
          rw [hm]; exact List.length_erase_of_mem hmem
        have hb1 : s1.binaries_loaded = s0.binaries_loaded - 1 := by
          rw [hb]; omega
        have hi0 : s0.initialized = true := hinit.2 (by omega)
        have := ih s1 hcs (by omega)
          (by
            rw [hi]
            by_cases hz : s1.binaries_loaded = 0
            · simp [hz]
            · simp only [hz, if_false, hi0, true_iff]; omega)
          (by rw [hlen]; omega) hrun
        obtain ⟨r1, r2, r3, r4, r5, r6⟩ := this
        obtain ⟨c1, c2⟩ := count_after_unregister s0.trace data (s1.binaries_loaded = 0)
        rw [ht] at r4 r5
        rw [c1] at r4
        rw [c2] at r5
        rw [hlen] at r4 r5 r6
        refine ⟨r1, r2, ?_, ?_, ?_, ?_⟩
        · simp only [countUnregister, countRegister]; omega
        · simp only [leavesZero]; exact r4
        · simp only [returnsToZero]
          have key : (if s1.binaries_loaded = 0 then 1 else 0) =
              (if s0.modules.length = 1 then 1 else 0) := by
            by_cases h1 : s0.modules.length = 1
            · rw [if_pos h1, if_pos (by omega)]
            · rw [if_neg h1, if_neg (by omega)]
          rw [r5, key]
          omega
        · simp only [leavesZero, returnsToZero]
          rw [if_pos (by omega : 0 < s0.binaries_loaded)]
          by_cases h1 : s0.modules.length = 1
          · rw [if_neg (by omega : ¬ 0 < s1.binaries_loaded)] at r6
            rw [if_pos h1]; omega
          · rw [if_pos (by omega : 0 < s1.binaries_loaded)] at r6
            rw [if_neg h1]; omega
    | registerFunction a b c e f g h i j k => cases hc
    | setupArgument a b c => cases hc
    | malloc a b => cases hc

theorem Outcome.eq_ret_of_returned (o : Outcome Unit) (h : o.returned = true) :
    o = .ret o.state () := by
  cases o with
  | ret s a => rfl
  | abort s f => cases h

theorem run_append (d : FatbinDecls) (s : State) (xs ys : List Call) :
    run d s (xs ++ ys) =
      match run d s xs with
      | .ret s1 _ => run d s1 ys
      | .abort s1 f => .abort s1 f := by
  induction xs generalizing s with
  | nil => rfl
  | cons c cs ih =>
    simp only [List.cons_append, run]
    cases step d s c with
    | ret s1 a => exact ih s1
    | abort s1 f => rfl

theorem register_memSpir (s : State) (p : Nat) (hp : p ≠ 0) :
    ∃ s1, __hipRegisterFatBinary hipDecls s memSpir 64 p = .ret s1 p ∧
      s1.modules = p :: s.modules ∧
      s1.binaries_loaded = (s.binaries_loaded + 1) % 2 ^ 32 ∧ s1.initialized = true := by
  have h := register_of_findDesc hipDecls s memSpir 64 p 88 120 (by decide) (by decide)
    (by decide) (by decide) hp (by decide)
  cases hout : __hipRegisterFatBinary hipDecls s memSpir 64 p with
  | abort s1 f => rw [hout] at h; have := h.1; simp [Outcome.value] at this
  | ret s1 a =>
    rw [hout] at h
    simp only [Outcome.value, Outcome.state, Option.some.injEq] at h
    exact ⟨s1, by rw [h.1], h.2.2.2.1, h.2.2.2.2.1, h.2.2.2.2.2⟩

theorem unregister_of_mem (s : State) (data : Nat) (h : data ∈ s.modules) :
    ∃ s1, __hipUnregisterFatBinary s data = .ret s1 () := by
  unfold __hipUnregisterFatBinary Backend.unregister_module
  simp only [State.emit, h, if_true]
  exact ⟨_, rfl⟩

theorem run_registerBurst (n first : Nat) (s : State) (hfirst : first ≠ 0) :
    ∃ s1, run hipDecls s (registerBurst first n) = .ret s1 () ∧
      s1.binaries_loaded % 2 ^ 32 = (s.binaries_loaded + n) % 2 ^ 32 ∧
      s1.modules.length = s.modules.length + n ∧
      (∀ x ∈ s.modules, x ∈ s1.modules) ∧
      (0 < n → first ∈ s1.modules ∧ s1.initialized = true ∧ s1.binaries_loaded < 2 ^ 32) := by
  induction n generalizing first s with
  | zero =>
    exact ⟨s, rfl, rfl, rfl, fun x hx => hx, fun h => absurd h (Nat.lt_irrefl 0)⟩
  | succ n ih =>
    obtain ⟨s1, h1, hm1, hb1, hi1⟩ := register_memSpir s first hfirst
    obtain ⟨s2, h2, hb2, hl2, hsub2, hpos2⟩ := ih (first + 32) s1 (by omega)
    refine ⟨s2, ?_, ?_, ?_, ?_, ?_⟩
    · simp only [registerBurst, run, step, h1, Outcome.discard]
      exact h2
    · rw [hb2, hb1]
      omega
    · rw [hl2, hm1]
      simp only [List.length_cons]
      omega
    · intro x hx
      exact hsub2 x (by rw [hm1]; exact List.mem_cons_of_mem _ hx)
    · intro _
      refine ⟨hsub2 first (by rw [hm1]; exact List.mem_cons_self _ _), ?_, ?_⟩
      · cases n with
        | zero =>
          simp only [registerBurst, run, Outcome.ret.injEq, and_true] at h2
          rw [← h2]; exact hi1
        | succ m => exact (hpos2 (Nat.succ_pos m)).2.1
      · cases n with
        | zero =>
          simp only [registerBurst, run, Outcome.ret.injEq, and_true] at h2
          rw [← h2, hb1]
          exact Nat.mod_lt _ (by norm_num)
        | succ m => exact (hpos2 (Nat.succ_pos m)).2.2

/-- C7 (amended): from (Uninitialized, counter 0), after every sequence of
    `__hipRegisterFatBinary` / `__hipUnregisterFatBinary` calls that all return
    (so every unregister named a registered handle) and during which fewer than
    `2^32` modules are loaded at once, the backend is Initialized if and only if
    `binaries_loaded > 0`, and if and only if a module is registered. -/
theorem lifecycle_follows_counter (d : FatbinDecls) (platform : List Device)
    (allocate : Nat → Nat) (calls : List Call) (s : State)
    (hreg : ∀ c ∈ calls, c.isRegistryCall = true)
    (hpeak : peakLoaded 0 calls < 2 ^ 32)
    (hrun : run d (State.start platform allocate) calls = .ret s ()) :
    (s.initialized = true ↔ 0 < s.binaries_loaded) ∧
    (s.initialized = true ↔ s.modules ≠ []) := by
  obtain ⟨h1, h2, -⟩ := run_registry d calls (State.start platform allocate) s hreg rfl
    (by simp [State.start]) hpeak hrun
  refine ⟨h2, ?_⟩
  rw [h2, h1, List.length_pos]

/-- Instance of `lifecycle_follows_counter`: two modules registered, the first
    unregistered. -/
theorem lifecycle_follows_counter_witness :
    ((run hipDecls (State.start [] (fun _ => 0)) callsTwoInOneOut).state.initialized = true ↔
      0 < (run hipDecls (State.start [] (fun _ => 0)) callsTwoInOneOut).state.binaries_loaded) ∧
    ((run hipDecls (State.start [] (fun _ => 0)) callsTwoInOneOut).state.initialized = true ↔
      (run hipDecls (State.start [] (fun _ => 0)) callsTwoInOneOut).state.modules ≠ []) :=
  lifecycle_follows_counter hipDecls [] (fun _ => 0) callsTwoInOneOut _ (by decide) (by decide)
    (Outcome.eq_ret_of_returned _ (by decide))

/-- C7, refuted as stated.  After `2^32` successful registrations the backend
    is Initialized while `binaries_loaded` is 0; after `2^32 + 1` registrations
    and the unregistration of the first module the backend is Uninitialized
    while `2^32` modules are registered. -/
theorem lifecycle_follows_counter_counterexample :
    ((run hipDecls (State.start [] (fun _ => 0)) (registerBurst 4096 4294967296)).returned =
        true ∧
      (run hipDecls (State.start [] (fun _ => 0))
        (registerBurst 4096 4294967296)).state.initialized = true ∧
      (run hipDecls (State.start [] (fun _ => 0))
        (registerBurst 4096 4294967296)).state.binaries_loaded = 0) ∧
    ((run hipDecls (State.start [] (fun _ => 0))
        (registerBurst 4096 4294967297 ++ [.unregisterFatBinary 4096])).returned = true ∧
      (run hipDecls (State.start [] (fun _ => 0))
        (registerBurst 4096 4294967297 ++ [.unregisterFatBinary 4096])).state.initialized =
        false ∧
      (run hipDecls (State.start [] (fun _ => 0))
        (registerBurst 4096 4294967297 ++ [.unregisterFatBinary 4096])).state.modules.length =
        4294967296) := by
  constructor
  · obtain ⟨s1, hrun, hb, -, -, hpos⟩ :=
      run_registerBurst 4294967296 4096 (State.start [] (fun _ => 0)) (by norm_num)
    obtain ⟨-, hi, hlt⟩ := hpos (by norm_num)
    rw [hrun]
    refine ⟨rfl, hi, ?_⟩
    have h0 : (State.start [] (fun _ => 0)).binaries_loaded = 0 := rfl
    rw [h0] at hb
    show s1.binaries_loaded = 0
    omega
  · obtain ⟨s1, hrun, hb, hl, -, hpos⟩ :=
      run_registerBurst 4294967297 4096 (State.start [] (fun _ => 0)) (by norm_num)
    obtain ⟨hmem, hi, hlt⟩ := hpos (by norm_num)
    obtain ⟨s2, h2⟩ := unregister_of_mem s1 4096 hmem
    obtain ⟨-, hm2, hb2, hi2, -⟩ := unregister_ret s1 4096 s2 h2
    have h0 : (State.start [] (fun _ => 0)).binaries_loaded = 0 := rfl
    have hl0 : (State.start [] (fun _ => 0)).modules.length = 0 := rfl
    rw [h0] at hb
    rw [hl0] at hl
    have hrun2 : run hipDecls (State.start [] (fun _ => 0))
        (registerBurst 4096 4294967297 ++ [.unregisterFatBinary 4096]) = .ret s2 () := by
      rw [run_append, hrun]
      simp only [run, step, h2]
    rw [hrun2]
    have hz : s2.binaries_loaded = 0 := by rw [hb2]; omega
    refine ⟨rfl, ?_, ?_⟩
    · show s2.initialized = false
      rw [hi2, if_pos hz]
    · show s2.modules.length = 4294967296
      rw [hm2, List.length_erase_of_mem hmem, hl]

/-- C8 (amended): from (Uninitialized, counter 0), after every sequence of
    `__hipRegisterFatBinary` / `__hipUnregisterFatBinary` calls that all return
    and during which fewer than `2^32` modules are loaded at once, one
    initialize effect has been observed for each time the count of loaded
    modules left 0, one `HIPxxUninitialize` call for each time it returned to 0
    and none otherwise, and the initialize effects outnumber the
    `HIPxxUninitialize` calls by one exactly when `binaries_loaded > 0`. -/
theorem lifecycle_effects_once_per_episode (d : FatbinDecls) (platform : List Device)
    (allocate : Nat → Nat) (calls : List Call) (s : State)
    (hreg : ∀ c ∈ calls, c.isRegistryCall = true)
    (hpeak : peakLoaded 0 calls < 2 ^ 32)
    (hrun : run d (State.start platform allocate) calls = .ret s ()) :
    s.trace.count Effect.init_effect = leavesZero 0 calls ∧
    s.trace.count Effect.uninit_call = returnsToZero 0 calls ∧
    s.trace.count Effect.init_effect =
      s.trace.count Effect.uninit_call + (if 0 < s.binaries_loaded then 1 else 0) := by
  obtain ⟨-, -, -, h4, h5, h6⟩ := run_registry d calls (State.start platform allocate) s hreg
    rfl (by simp [State.start]) hpeak hrun
  have e1 : (State.start platform allocate).trace.count Effect.init_effect = 0 := rfl
  have e2 : (State.start platform allocate).trace.count Effect.uninit_call = 0 := rfl
  have e3 : (State.start platform allocate).modules.length = 0 := rfl
  have e4 : (State.start platform allocate).binaries_loaded = 0 := rfl
  rw [e1, e3, Nat.zero_add] at h4
  rw [e2, e3, Nat.zero_add] at h5
  rw [e3, e4, if_neg (Nat.lt_irrefl 0), Nat.add_zero] at h6
  exact ⟨h4, h5, by rw [h4, h5, h6]⟩

/-- Instance of `lifecycle_effects_once_per_episode`: two modules registered,
    the first unregistered; one initialize effect, no `HIPxxUninitialize`. -/
theorem lifecycle_effects_once_per_episode_witness :
    (run hipDecls (State.start [] (fun _ => 0)) callsTwoInOneOut).state.trace.count
        Effect.init_effect = leavesZero 0 callsTwoInOneOut ∧
    (run hipDecls (State.start [] (fun _ => 0)) callsTwoInOneOut).state.trace.count
        Effect.uninit_call = returnsToZero 0 callsTwoInOneOut ∧
    (run hipDecls (State.start [] (fun _ => 0)) callsTwoInOneOut).state.trace.count
        Effect.init_effect =
      (run hipDecls (State.start [] (fun _ => 0)) callsTwoInOneOut).state.trace.count
        Effect.uninit_call +
      (if 0 < (run hipDecls (State.start [] (fun _ => 0))
        callsTwoInOneOut).state.binaries_loaded then 1 else 0) :=
  lifecycle_effects_once_per_episode hipDecls [] (fun _ => 0) callsTwoInOneOut _ (by decide)
    (by decide) (Outcome.eq_ret_of_returned _ (by decide))

/-- C8, refuted as stated: register a module, unregister it, register a module
    again (N = 2, M = 1, the unregister names the active handle).  All three
    calls return and two initialize effects are observed. -/
theorem lifecycle_effects_once_per_episode_counterexample :
    (run hipDecls (State.start [] (fun _ => 0)) callsInOutIn).returned = true ∧
    countRegister callsInOutIn = 2 ∧ countUnregister callsInOutIn = 1 ∧
    (run hipDecls (State.start [] (fun _ => 0)) callsInOutIn).state.trace =
      [.init_call, .init_effect, .register_module 4096,
       .unregister_module 4096, .uninit_call, .delete_module 4096,
       .init_call, .init_effect, .register_module 4096] ∧
    (run hipDecls (State.start [] (fun _ => 0)) callsInOutIn).state.trace.count
      Effect.init_effect = 2 := by
  decide

/-- C9 (amended): from (Uninitialized, counter 0), after every sequence of
    `__hipRegisterFatBinary` / `__hipUnregisterFatBinary` calls that all return
    and during which fewer than `2^32` modules are loaded at once,
    `binaries_loaded` is the number of registered modules, it is the number of
    register calls minus the number of unregister calls (each call moved it by
    exactly one, without wrapping), and it is 0 exactly when the registry is
    empty. -/
theorem counter_counts_modules (d : FatbinDecls) (platform : List Device)
    (allocate : Nat → Nat) (calls : List Call) (s : State)
    (hreg : ∀ c ∈ calls, c.isRegistryCall = true)
    (hpeak : peakLoaded 0 calls < 2 ^ 32)
    (hrun : run d (State.start platform allocate) calls = .ret s ()) :
    s.binaries_loaded = s.modules.length ∧
    s.binaries_loaded + countUnregister calls = countRegister calls ∧
    (s.binaries_loaded = 0 ↔ s.modules = []) := by
  obtain ⟨h1, -, h3, -⟩ := run_registry d calls (State.start platform allocate) s hreg rfl
    (by simp [State.start]) hpeak hrun
  have e4 : (State.start platform allocate).binaries_loaded = 0 := rfl
  rw [e4, Nat.zero_add] at h3
  refine ⟨h1, h3, ?_⟩
  rw [h1, List.length_eq_zero]

/-- Instance of `counter_counts_modules`: two modules registered, the first
    unregistered; the counter is 1. -/
theorem counter_counts_modules_witness :
    (run hipDecls (State.start [] (fun _ => 0)) callsTwoInOneOut).state.binaries_loaded =
      (run hipDecls (State.start [] (fun _ => 0)) callsTwoInOneOut).state.modules.length ∧
    (run hipDecls (State.start [] (fun _ => 0)) callsTwoInOneOut).state.binaries_loaded +
      countUnregister callsTwoInOneOut = countRegister callsTwoInOneOut ∧
    ((run hipDecls (State.start [] (fun _ => 0)) callsTwoInOneOut).state.binaries_loaded = 0 ↔
      (run hipDecls (State.start [] (fun _ => 0)) callsTwoInOneOut).state.modules = []) :=
  counter_counts_modules hipDecls [] (fun _ => 0) callsTwoInOneOut _ (by decide) (by decide)
    (Outcome.eq_ret_of_returned _ (by decide))

/-- C9, refuted as stated: after `2^32` successful registrations (no
    unregistration) `2^32` modules are registered and `binaries_loaded` is 0:
    the registration that found it at `2^32 - 1` did not raise it by 1. -/
theorem counter_counts_modules_counterexample :
    (run hipDecls (State.start [] (fun _ => 0)) (registerBurst 4096 4294967296)).returned =
      true ∧
    (run hipDecls (State.start [] (fun _ => 0))
      (registerBurst 4096 4294967296)).state.modules.length = 4294967296 ∧
    (run hipDecls (State.start [] (fun _ => 0))
      (registerBurst 4096 4294967296)).state.binaries_loaded = 0 := by
  obtain ⟨s1, hrun, hb, hl, -, hpos⟩ :=
    run_registerBurst 4294967296 4096 (State.start [] (fun _ => 0)) (by norm_num)
  obtain ⟨-, -, hlt⟩ := hpos (by norm_num)
  have h0 : (State.start [] (fun _ => 0)).binaries_loaded = 0 := rfl
  have hl0 : (State.start [] (fun _ => 0)).modules.length = 0 := rfl
  rw [h0] at hb
  rw [hl0, Nat.zero_add] at hl
  rw [hrun]
  refine ⟨rfl, hl, ?_⟩
  show s1.binaries_loaded = 0
  omega

/-- C10: for a handle the backend does not hold as registered (never
    registered, or already unregistered), `__hipUnregisterFatBinary` aborts as
    UnknownHandle inside `Backend->unregister_module`: `binaries_loaded` is not
    decremented, `HIPxxUninitialize` is not called and nothing is deleted. -/
theorem unregister_unknown_handle_aborts (s : State) (data : Nat)
    (hunknown : data ∉ s.modules) :
    __hipUnregisterFatBinary s data =
      .abort (s.emit (.unregister_module data)) .UnknownHandle := by
  unfold __hipUnregisterFatBinary Backend.unregister_module
  simp only [State.emit, hunknown, if_false]

/-- Instance of `unregister_unknown_handle_aborts`: the handle 4096 after it
    has been registered and unregistered once. -/
theorem unregister_unknown_handle_aborts_witness :
    __hipUnregisterFatBinary
        (run hipDecls (State.start [] (fun _ => 0)) (callsInOutIn.take 2)).state 4096 =
      .abort ((run hipDecls (State.start [] (fun _ => 0)) (callsInOutIn.take 2)).state.emit
        (.unregister_module 4096)) .UnknownHandle :=
  unregister_unknown_handle_aborts _ 4096 (by decide)

/-! ## The descriptor loop: matching rule and stride -/

theorem findDesc_succ (mem : Memory) (n desc : Nat) :
    findDesc mem (n + 1) desc =
      if loadBytes mem (desc + 24) SPIR_TRIPLE.length = SPIR_TRIPLE then some desc
      else findDesc mem n (nextDesc mem desc) := by
  rw [findDesc]
  simp only [triple_matches_iff, nextDesc]

theorem examined_succ (mem : Memory) (n desc : Nat) :
    examined mem (n + 1) desc =
      if loadBytes mem (desc + 24) SPIR_TRIPLE.length = SPIR_TRIPLE then [desc]
      else desc :: examined mem n (nextDesc mem desc) := by
  rw [examined]
  simp only [triple_matches_iff, nextDesc]

theorem loopDesc_zero (mem : Memory) (desc : Nat) : loopDesc mem desc 0 = desc := by
  rw [loopDesc]

theorem loopDesc_succ (mem : Memory) (desc k : Nat) :
    loopDesc mem desc (k + 1) = loopDesc mem (nextDesc mem desc) k := by
  rw [loopDesc]

/-- The loop returns the descriptor of the first iteration whose comparison
    succeeds. -/
theorem findDesc_first_match (mem : Memory) (k n base : Nat) (hk : k < n)
    (hmiss : ∀ j, j < k →
      loadBytes mem (loopDesc mem base j + 24) SPIR_TRIPLE.length ≠ SPIR_TRIPLE)
    (hhit : loadBytes mem (loopDesc mem base k + 24) SPIR_TRIPLE.length = SPIR_TRIPLE) :
    findDesc mem n base = some (loopDesc mem base k) := by
  induction k generalizing n base with
  | zero =>
    obtain ⟨m, rfl⟩ : ∃ m, n = m + 1 := ⟨n - 1, by omega⟩
    rw [loopDesc_zero] at hhit ⊢
    rw [findDesc_succ, if_pos hhit]
  | succ k ih =>
    obtain ⟨m, rfl⟩ : ∃ m, n = m + 1 := ⟨n - 1, by omega⟩
    have h0 := hmiss 0 (Nat.succ_pos k)
    rw [loopDesc_zero] at h0
    rw [loopDesc_succ] at hhit ⊢
    rw [findDesc_succ, if_neg h0]
    refine ih m (nextDesc mem base) (by omega) (fun j hj => ?_) hhit
    have := hmiss (j + 1) (by omega)
    rw [loopDesc_succ] at this
    exact this

/-- The pointers of the iterations up to `k` depend only on the `tripleSize`
    fields of the descriptors before `k`. -/
theorem loopDesc_congr (mem mem' : Memory) (k base : Nat)
    (hsize : ∀ j, j < k →
      loadBytes mem' (loopDesc mem base j + 16) 8 = loadBytes mem (loopDesc mem base j + 16) 8) :
    ∀ j, j ≤ k → loopDesc mem' base j = loopDesc mem base j := by
  induction k generalizing base with
  | zero =>
    intro j hj
    have : j = 0 := by omega
    subst this
    rw [loopDesc_zero, loopDesc_zero]
  | succ k ih =>
    intro j hj
    cases j with
    | zero => rw [loopDesc_zero, loopDesc_zero]
    | succ j =>
      have h0 := hsize 0 (Nat.succ_pos k)
      rw [loopDesc_zero] at h0
      have hn : nextDesc mem' base = nextDesc mem base := by
        unfold nextDesc readU64
        rw [h0]
      rw [loopDesc_succ, loopDesc_succ, hn]
      refine ih (nextDesc mem base) (fun i hi => ?_) j (by omega)
      have := hsize (i + 1) (by omega)
      rw [loopDesc_succ] at this
      exact this

/-- C14: in `__hipRegisterFatBinary` (valid magics, `numBundles = n`), when
    iteration `k < n` is the first whose 26 bytes at the identifier field equal
    `SPIR_TRIPLE`, the loop stops at that descriptor and the module is built
    from its `offset` and `size`.  The choice rests on nothing but the 26-byte
    windows of descriptors `0..k` and the `tripleSize` fields of the skipped
    descriptors `0..k-1`: a memory that agrees on those selects the same
    descriptor, whatever it holds in the selected descriptor's `tripleSize`
    field or in any later descriptor. -/
theorem register_selects_lowest_match (d : FatbinDecls) (s : State) (mem : Memory)
    (data p header n k : Nat)
    (hmagic : readU32 mem data = d.hipFatMAGIC2) (hversion : readU32 mem (data + 4) = 1)
    (hbinary : readU64 mem (data + 8) = header)
    (hnul : 0 ∉ d.CLANG_OFFLOAD_BUNDLER_MAGIC)
    (hinner : holds mem header d.CLANG_OFFLOAD_BUNDLER_MAGIC)
    (hp : p ≠ 0)
    (hnum : readU64 mem (header + d.numBundlesOff) = n) (hk : k < n)
    (hmiss : ∀ j, j < k →
      loadBytes mem (loopDesc mem (header + d.descOff) j + 24) SPIR_TRIPLE.length ≠
        SPIR_TRIPLE)
    (hhit : loadBytes mem (loopDesc mem (header + d.descOff) k + 24) SPIR_TRIPLE.length =
      SPIR_TRIPLE) :
    findDesc mem n (header + d.descOff) = some (loopDesc mem (header + d.descOff) k) ∧
    (__hipRegisterFatBinary d s mem data p).value = some p ∧
    (__hipRegisterFatBinary d s mem data p).state.heap.lookup p =
      some (loadBytes mem
        ((header + readU64 mem (loopDesc mem (header + d.descOff) k)) % 2 ^ 64)
        (readU64 mem (loopDesc mem (header + d.descOff) k + 8))) ∧
    ∀ mem' : Memory,
      (∀ j, j < k →
        loadBytes mem' (loopDesc mem (header + d.descOff) j + 16) 8 =
          loadBytes mem (loopDesc mem (header + d.descOff) j + 16) 8) →
      (∀ j, j ≤ k →
        loadBytes mem' (loopDesc mem (header + d.descOff) j + 24) SPIR_TRIPLE.length =
          loadBytes mem (loopDesc mem (header + d.descOff) j + 24) SPIR_TRIPLE.length) →
      findDesc mem' n (header + d.descOff) = some (loopDesc mem (header + d.descOff) k) := by
  have hfind := findDesc_first_match mem k n (header + d.descOff) hk hmiss hhit
  have hreg := register_of_findDesc d s mem data p header _ hmagic hversion hbinary
    (inner_magic_ok d mem header hnul hinner) hp (by rw [hnum]; exact hfind)
  refine ⟨hfind, hreg.1, hreg.2.1, ?_⟩
  intro mem' hsize hwin
  have hsame := loopDesc_congr mem mem' k (header + d.descOff) hsize
  rw [← hsame k (Nat.le_refl k)]
  apply findDesc_first_match mem' k n (header + d.descOff) hk
  · intro j hj
    rw [hsame j (by omega), hwin j (by omega)]
    exact hmiss j hj
  · rw [hsame k (Nat.le_refl k), hwin k (Nat.le_refl k)]
    exact hhit

/-- Instance of `register_selects_lowest_match`: in `memShortSpirAmd` the first
    descriptor declares an identifier of 25 bytes, the 26 bytes at its
    identifier field equal the target, and it is the one selected. -/
theorem register_selects_lowest_match_witness :
    findDesc memShortSpirAmd 3 120 = some 120 ∧
    readU64 memShortSpirAmd (120 + 16) = 25 ∧
    (__hipRegisterFatBinary hipDecls (State.start [] (fun _ => 0)) memShortSpirAmd 64
      4096).state.heap.lookup 4096 = some [10, 11, 12] :=
  have h := register_selects_lowest_match hipDecls (State.start [] (fun _ => 0))
    memShortSpirAmd 64 4096 88 3 0 (by decide) (by decide) (by decide) (by decide) (by decide)
    (by decide) (by decide) (by decide) (by decide) (by decide)
  ⟨h.1, by decide, h.2.2.1⟩

theorem loopDesc_succ_left (mem : Memory) (desc k : Nat) :
    loopDesc mem desc (k + 1) = nextDesc mem (loopDesc mem desc k) := by
  induction k generalizing desc with
  | zero => rw [loopDesc_succ, loopDesc_zero, loopDesc_zero]
  | succ k ih => rw [loopDesc_succ, ih, ← loopDesc_succ]

/-- Without wrap-around the loop pointer of iteration `k` is `strideAddr`. -/
theorem loopDesc_eq_strideAddr (mem : Memory) (base k : Nat)
    (hfit : ∀ j, j < k → strideAddr mem base (j + 1) < 2 ^ 64) :
    loopDesc mem base k = strideAddr mem base k := by
  induction k with
  | zero => rw [loopDesc_zero]; rfl
  | succ k ih =>
    rw [loopDesc_succ_left, ih (fun j hj => hfit j (by omega))]
    have h := hfit k (Nat.lt_succ_self k)
    rw [strideAddr] at h ⊢
    unfold nextDesc
    exact Nat.mod_eq_of_lt h

/-- The sum form of `strideAddr`. -/
theorem strideAddr_eq_sum (mem : Memory) (base k : Nat) :
    strideAddr mem base k =
      base + ((List.range k).map
        (fun j => 24 + readU64 mem (strideAddr mem base j + 16))).sum := by
  induction k with
  | zero => rfl
  | succ k ih =>
    rw [List.range_succ, List.map_append, List.sum_append, strideAddr]
    simp only [List.map_cons, List.map_nil, List.sum_cons, List.sum_nil, Nat.add_zero]
    omega

/-- Iteration `k` of the loop examines `loopDesc k` when it is reached. -/
theorem examined_get (mem : Memory) (k n base : Nat) (hk : k < n)
    (hmiss : ∀ j, j < k →
      loadBytes mem (loopDesc mem base j + 24) SPIR_TRIPLE.length ≠ SPIR_TRIPLE) :
    (examined mem n base)[k]? = some (loopDesc mem base k) := by
  induction k generalizing n base with
  | zero =>
    obtain ⟨m, rfl⟩ : ∃ m, n = m + 1 := ⟨n - 1, by omega⟩
    rw [examined_succ, loopDesc_zero]
    split <;> simp only [List.getElem?_cons_zero]
  | succ k ih =>
    obtain ⟨m, rfl⟩ : ∃ m, n = m + 1 := ⟨n - 1, by omega⟩
    have h0 := hmiss 0 (Nat.succ_pos k)
    rw [loopDesc_zero] at h0
    rw [examined_succ, if_neg h0, loopDesc_succ, List.getElem?_cons_succ]
    refine ih m (nextDesc mem base) (by omega) (fun j hj => ?_)
    have := hmiss (j + 1) (by omega)
    rw [loopDesc_succ] at this
    exact this

/-- The loop's result is the last descriptor it examined. -/
theorem findDesc_mem_examined (mem : Memory) (n base desc : Nat)
    (h : findDesc mem n base = some desc) : (examined mem n base).getLast? = some desc := by
  induction n generalizing base with
  | zero => rw [findDesc] at h; cases h
  | succ n ih =>
    rw [findDesc_succ] at h
    rw [examined_succ]
    split at h
    · rename_i hm
      rw [if_pos hm]
      cases h
      rfl
    · rename_i hm
      rw [if_neg hm]
      have := ih _ h
      cases hex : examined mem n (nextDesc mem base) with
      | nil => rw [hex] at this; cases this
      | cons a as => rw [hex] at this; rw [List.getLast?_cons_cons]; exact this

/-- C15: the descriptor the loop examines at index `k` (`k < numBundles`, no
    earlier descriptor matching) starts at `base + Σ_{j<k} (24 + tripleSize_j)`,
    the byte right after descriptor `k-1`'s identifier bytes, provided the
    identifiers of the descriptors before `k` end inside the 64-bit address
    space; the step from one descriptor to the next is `24 + tripleSize`, not
    a constant. -/
theorem loop_walks_variable_stride (mem : Memory) (n base k : Nat) (hk : k < n)
    (hmiss : ∀ j, j < k →
      loadBytes mem (strideAddr mem base j + 24) SPIR_TRIPLE.length ≠ SPIR_TRIPLE)
    (hfit : ∀ j, j < k → strideAddr mem base (j + 1) < 2 ^ 64) :
    (examined mem n base)[k]? = some (strideAddr mem base k) ∧
    strideAddr mem base k =
      base + ((List.range k).map
        (fun j => 24 + readU64 mem (strideAddr mem base j + 16))).sum ∧
    ∀ j, j < k →
      strideAddr mem base (j + 1) =
        strideAddr mem base j + 24 + readU64 mem (strideAddr mem base j + 16) := by
  have hsame : ∀ j, j ≤ k → loopDesc mem base j = strideAddr mem base j := fun j hj =>
    loopDesc_eq_strideAddr mem base j (fun i hi => hfit i (by omega))
  refine ⟨?_, strideAddr_eq_sum mem base k, fun j _ => by rw [strideAddr]⟩
  rw [← hsame k (Nat.le_refl k)]
  apply examined_get mem k n base hk
  intro j hj
  rw [hsame j (by omega)]
  exact hmiss j hj

/-- Instance of `loop_walks_variable_stride`: in `memHostAmdSpir` the
    descriptors start at 120, 173 and 218; the steps are 53 and 45. -/
theorem loop_walks_variable_stride_witness :
    (examined memHostAmdSpir 3 120)[2]? = some 218 ∧
    strideAddr memHostAmdSpir 120 2 = 120 + (24 + 29) + (24 + 21) :=
  have h := loop_walks_variable_stride memHostAmdSpir 3 120 2 (by decide) (by decide)
    (by decide)
  ⟨h.1, by decide⟩

/-! ## `hipMalloc` -/

theorem entered_allocate (s : State) : (entered s).allocate = s.allocate := by
  unfold entered HIPxxInitialize State.emit
  split <;> rfl

/-- C18: with a null output pointer `hipMalloc` returns `hipErrorInvalidValue`
    for every size, 0 included, in the state reached right after
    `HIPxxInitialize()`: nothing is stored and `allocate` is not called. -/
theorem hipMalloc_null_pointer (s : State) (size : Nat) :
    hipMalloc s 0 size = .ret (entered s) (.hipErrorInvalidValue, none) := by
  unfold hipMalloc
  dsimp only
  rw [if_pos rfl]
  rfl

/-- C12 (amended): with a non-null output pointer and size 0, `hipMalloc`
    stores the null pointer, returns `hipSuccess`, and ends in the state
    reached right after `HIPxxInitialize()`: `allocate` is not called. -/
theorem hipMalloc_zero_size (s : State) (ptr : Nat) (hptr : ptr ≠ 0) :
    hipMalloc s ptr 0 = .ret (entered s) (.hipSuccess, some 0) := by
  unfold hipMalloc
  dsimp only
  rw [if_neg hptr, if_pos rfl]
  rfl

/-- Instance of `hipMalloc_zero_size`: output location 8. -/
theorem hipMalloc_zero_size_witness :
    hipMalloc (State.start [] (fun _ => 65536)) 8 0 =
      .ret (entered (State.start [] (fun _ => 65536))) (.hipSuccess, some 0) :=
  hipMalloc_zero_size (State.start [] (fun _ => 65536)) 8 (by decide)

/-- C12, refuted as stated: size 0 with a null output pointer.  The status is
    `hipErrorInvalidValue` and nothing is written. -/
theorem hipMalloc_zero_size_counterexample :
    (hipMalloc (State.start [] (fun _ => 65536)) 0 0).value =
      some (.hipErrorInvalidValue, none) := by
  decide

/-- C13: with a non-null output pointer and a size above 0, `hipMalloc` calls
    `allocate(size)` exactly once and returns (it does not abort); it returns
    `hipErrorMemoryAllocation` without a store when `allocate` gave null, and
    otherwise `hipSuccess` with the pointer `allocate` gave stored. -/
theorem hipMalloc_allocates (s : State) (ptr size : Nat) (hptr : ptr ≠ 0)
    (hsize : size ≠ 0) :
    hipMalloc s ptr size =
        .ret ((entered s).emit (.allocate size))
          (if s.allocate size = 0 then (.hipErrorMemoryAllocation, none)
           else (.hipSuccess, some (s.allocate size))) ∧
    ((hipMalloc s ptr size).value = some (.hipErrorMemoryAllocation, none) ↔
      s.allocate size = 0) := by
  have he : HIPxxInitialize (s.emit .init_call) = entered s := rfl
  have heq : hipMalloc s ptr size =
      .ret ((entered s).emit (.allocate size))
        (if s.allocate size = 0 then (.hipErrorMemoryAllocation, none)
         else (.hipSuccess, some (s.allocate size))) := by
    unfold hipMalloc
    dsimp only
    rw [if_neg hptr, if_neg hsize, he, entered_allocate]
    split <;> rfl
  refine ⟨heq, ?_⟩
  rw [heq]
  by_cases h0 : s.allocate size = 0
  · simp only [h0, if_true, Outcome.value]
  · simp only [h0, if_false, Outcome.value, Option.some.injEq, Prod.mk.injEq, reduceCtorEq,
      false_and]

/-- Instance of `hipMalloc_allocates`: `allocate` gives 65536 for 16 bytes. -/
theorem hipMalloc_allocates_witness :
    hipMalloc (State.start [] (fun _ => 65536)) 8 16 =
        .ret ((entered (State.start [] (fun _ => 65536))).emit (.allocate 16))
          (if (State.start [] (fun _ => 65536)).allocate 16 = 0 then
            (.hipErrorMemoryAllocation, none)
           else (.hipSuccess, some ((State.start [] (fun _ => 65536)).allocate 16))) ∧
    ((hipMalloc (State.start [] (fun _ => 65536)) 8 16).value =
        some (.hipErrorMemoryAllocation, none) ↔
      (State.start [] (fun _ => 65536)).allocate 16 = 0) :=
  hipMalloc_allocates (State.start [] (fun _ => 65536)) 8 16 (by decide) (by decide)

/-- C16: `__hipRegisterFunction` does not look at `threadLimit`, `tid`, `bid`,
    `blockDim`, `gridDim` and `wSize`: two calls that agree on the state (so on
    the device list), the module handle, the host function and the device
    name end the same way, with the same bind calls. -/
theorem registerFunction_ignores_launch_bounds (s : State) (data hostFunction : Nat)
    (deviceFunction deviceName : String)
    (threadLimit tid bid blockDim gridDim wSize : Nat)
    (threadLimit' tid' bid' blockDim' gridDim' wSize' : Nat) :
    __hipRegisterFunction s data hostFunction deviceFunction deviceName threadLimit tid bid
        blockDim gridDim wSize =
      __hipRegisterFunction s data hostFunction deviceFunction deviceName threadLimit' tid'
        bid' blockDim' gridDim' wSize' := by
  unfold __hipRegisterFunction
  rfl

/-- C19: when `binaries_loaded` is 0 and `Backend->unregister_module` returns,
    `__hipUnregisterFatBinary` returns with `binaries_loaded = 2^32 - 1`; after
    the backend call it only deletes the module: `HIPxxUninitialize` is not
    called and the lifecycle is unchanged. -/
theorem unregister_wraps_counter (s : State) (data : Nat)
    (hzero : s.binaries_loaded = 0)
    (hreturns :
      (Backend.unregister_module (s.emit (.unregister_module data)) data).isSome = true) :
    (__hipUnregisterFatBinary s data).returned = true ∧
    (__hipUnregisterFatBinary s data).state.binaries_loaded = 2 ^ 32 - 1 ∧
    (__hipUnregisterFatBinary s data).state.trace =
      s.trace ++ [.unregister_module data, .delete_module data] ∧
    (__hipUnregisterFatBinary s data).state.initialized = s.initialized := by
  have hmem : data ∈ s.modules := by
    unfold Backend.unregister_module State.emit at hreturns
    by_cases hm : data ∈ s.modules
    · exact hm
    · simp only [hm, if_false, Option.isSome_none] at hreturns
      cases hreturns
  obtain ⟨s1, h1⟩ := unregister_of_mem s data hmem
  obtain ⟨-, -, hb, hi, ht⟩ := unregister_ret s data s1 h1
  rw [hzero] at hb
  have hb1 : s1.binaries_loaded = 2 ^ 32 - 1 := by rw [hb]; norm_num
  have hne : ¬ s1.binaries_loaded = 0 := by rw [hb1]; norm_num
  rw [if_neg hne] at hi ht
  rw [h1]
  refine ⟨rfl, hb1, ?_, hi⟩
  show s1.trace = _
  rw [ht]
  simp only [List.append_nil, List.append_assoc, List.singleton_append]

/-- Instance of `unregister_wraps_counter`: the state `stateZeroCounter`. -/
theorem unregister_wraps_counter_witness :
    (__hipUnregisterFatBinary stateZeroCounter 4096).returned = true ∧
    (__hipUnregisterFatBinary stateZeroCounter 4096).state.binaries_loaded = 2 ^ 32 - 1 ∧
    (__hipUnregisterFatBinary stateZeroCounter 4096).state.trace =
      stateZeroCounter.trace ++ [.unregister_module 4096, .delete_module 4096] ∧
    (__hipUnregisterFatBinary stateZeroCounter 4096).state.initialized =
      stateZeroCounter.initialized :=
  unregister_wraps_counter stateZeroCounter 4096 (by decide) (by decide)

/-! ## Order of effects inside one call -/

/-- Every path of `__hipRegisterFatBinary` extends the trace reached right
    after `HIPxxInitialize()`. -/
theorem register_trace (d : FatbinDecls) (s : State) (mem : Memory) (data p : Nat) :
    ∃ rest, (__hipRegisterFatBinary d s mem data p).state.trace = (entered s).trace ++ rest := by
  have he : HIPxxInitialize (s.emit .init_call) = entered s := rfl
  unfold __hipRegisterFatBinary
  dsimp only
  rw [he]
  split
  · exact ⟨[], by simp only [Outcome.state, List.append_nil]⟩
  · split
    · exact ⟨[], by simp only [Outcome.state, List.append_nil]⟩
    · split
      · exact ⟨[], by simp only [Outcome.state, List.append_nil]⟩
      · split
        · exact ⟨[], by simp only [Outcome.state, List.append_nil]⟩
        · exact ⟨[.register_module p], by
            simp only [Outcome.state, Backend.register_module, State.emit, State.assign]⟩

/-- The device loop only appends to the trace and leaves the counter, the
    registry and the lifecycle alone. -/
theorem registerOnDevices_state (module hostFunction : Nat) (deviceName : String)
    (devs : List Device) (s : State) (i : Nat) :
    (∃ rest, (registerOnDevices module hostFunction deviceName s i devs).state.trace =
        s.trace ++ rest ∧ Effect.init_call ∉ rest) ∧
    (registerOnDevices module hostFunction deviceName s i devs).state.binaries_loaded =
      s.binaries_loaded ∧
    (registerOnDevices module hostFunction deviceName s i devs).state.modules = s.modules ∧
    (registerOnDevices module hostFunction deviceName s i devs).state.initialized =
      s.initialized := by
  induction devs generalizing s i with
  | nil =>
    exact ⟨⟨[], by simp only [registerOnDevices, Outcome.state, List.append_nil],
      List.not_mem_nil _⟩, rfl, rfl, rfl⟩
  | cons dev devs ih =>
    rw [registerOnDevices]
    split
    · obtain ⟨⟨rest, hr, hn⟩, h2, h3, h4⟩ :=
        ih (s.emit (.registerFunction i module hostFunction deviceName)) (i + 1)
      refine ⟨⟨.registerFunction i module hostFunction deviceName :: rest, ?_, ?_⟩, ?_, ?_, ?_⟩
      · rw [hr]
        simp only [State.emit, List.append_assoc, List.singleton_append]
      · intro hmem
        rcases List.mem_cons.1 hmem with h | h
        · cases h
        · exact hn h
      · rw [h2]; rfl
      · rw [h3]; rfl
      · rw [h4]; rfl
    · exact ⟨⟨[.registerFunction i module hostFunction deviceName], rfl, by
        simp only [List.mem_singleton, reduceCtorEq, not_false_eq_true]⟩, rfl, rfl, rfl⟩

/-- Where each entry point calls `HIPxxInitialize()`: `__hipRegisterFatBinary`,
    `__hipRegisterFunction` and `hipMalloc` call it before anything else on
    every path (whatever the outcome, the first effect a call adds to the
    trace is that call); `__hipUnregisterFatBinary` adds
    `Backend->unregister_module` first, and no `HIPxxInitialize()` call
    follows. -/
theorem entry_points_initialize_first (d : FatbinDecls) (s : State) (mem : Memory)
    (data p hostFunction : Nat) (deviceFunction deviceName : String)
    (threadLimit tid bid blockDim gridDim wSize ptr size : Nat) :
    (∃ rest, (__hipRegisterFatBinary d s mem data p).state.trace =
      s.trace ++ Effect.init_call :: rest) ∧
    (∃ rest, (__hipRegisterFunction s data hostFunction deviceFunction deviceName threadLimit
      tid bid blockDim gridDim wSize).state.trace = s.trace ++ Effect.init_call :: rest) ∧
    (∃ rest, (hipMalloc s ptr size).state.trace = s.trace ++ Effect.init_call :: rest) ∧
    (∃ rest, (__hipUnregisterFatBinary s data).state.trace =
      s.trace ++ Effect.unregister_module data :: rest ∧ Effect.init_call ∉ rest) := by
  have he : HIPxxInitialize (s.emit .init_call) = entered s := rfl
  have hent : ∃ r0, (entered s).trace = s.trace ++ Effect.init_call :: r0 :=
    ⟨if s.initialized then [] else [.init_effect], by
      rw [entered_trace]
      simp only [List.append_assoc, List.singleton_append]⟩
  obtain ⟨r0, h0⟩ := hent
  refine ⟨?_, ?_, ?_, ?_⟩
  · obtain ⟨rest, hr⟩ := register_trace d s mem data p
    exact ⟨r0 ++ rest, by rw [hr, h0]; simp only [List.append_assoc, List.cons_append]⟩
  · obtain ⟨⟨rest, hr, -⟩, -⟩ :=
      registerOnDevices_state data hostFunction deviceName (entered s).devices (entered s) 0
    refine ⟨r0 ++ rest, ?_⟩
    unfold __hipRegisterFunction
    dsimp only
    rw [he, hr, h0]
    simp only [List.append_assoc, List.cons_append]
  · unfold hipMalloc
    dsimp only
    rw [he]
    split
    · exact ⟨r0, h0⟩
    · split
      · exact ⟨r0, h0⟩
      · split
        · exact ⟨r0 ++ [.allocate size], by
            simp only [Outcome.state, State.emit, h0, List.append_assoc, List.cons_append]⟩
        · exact ⟨r0 ++ [.allocate size], by
            simp only [Outcome.state, State.emit, h0, List.append_assoc, List.cons_append]⟩
  · by_cases hm : data ∈ s.modules
    · obtain ⟨s1, h1⟩ := unregister_of_mem s data hm
      obtain ⟨-, -, -, -, ht⟩ := unregister_ret s data s1 h1
      rw [h1]
      refine ⟨(if s1.binaries_loaded = 0 then [.uninit_call] else []) ++
        [.delete_module data], ?_, ?_⟩
      · show s1.trace = _
        rw [ht]
        simp only [List.append_assoc, List.singleton_append, List.cons_append, List.nil_append]
      · split <;> simp only [List.mem_append, List.mem_singleton, List.mem_cons,
          List.not_mem_nil, reduceCtorEq, or_self, not_false_eq_true]
    · refine ⟨[], ?_, List.not_mem_nil _⟩
      unfold __hipUnregisterFatBinary Backend.unregister_module
      simp only [State.emit, hm, if_false, Outcome.state]

/-- C11: `__hipUnregisterFatBinary` evaluated where the claim fails.  Called
    at program start it enters `Backend->unregister_module` and aborts, the
    backend still Uninitialized and no `HIPxxInitialize()` call made; the same
    happens when it is called again after a module was registered and
    unregistered (the backend torn down in between); called on the one
    registered module it adds the backend call, `HIPxxUninitialize()` and the
    deletion, and no `HIPxxInitialize()` call. -/
theorem unregister_skips_initialize :
    ((__hipUnregisterFatBinary (State.start [] (fun _ => 0)) 4096).state.trace =
        [.unregister_module 4096] ∧
      (__hipUnregisterFatBinary (State.start [] (fun _ => 0)) 4096).state.initialized =
        false ∧
      (__hipUnregisterFatBinary (State.start [] (fun _ => 0)) 4096).fatal =
        some .UnknownHandle) ∧
    ((run hipDecls (State.start [] (fun _ => 0)) (callsInOutIn.take 2)).state.trace =
        [.init_call, .init_effect, .register_module 4096,
         .unregister_module 4096, .uninit_call, .delete_module 4096] ∧
      (__hipUnregisterFatBinary
        (run hipDecls (State.start [] (fun _ => 0)) (callsInOutIn.take 2)).state
        4096).state.trace =
        [.init_call, .init_effect, .register_module 4096,
         .unregister_module 4096, .uninit_call, .delete_module 4096,
         .unregister_module 4096] ∧
      (__hipUnregisterFatBinary
        (run hipDecls (State.start [] (fun _ => 0)) (callsInOutIn.take 2)).state
        4096).state.initialized = false) := by
  decide

/-! ## Sequences of calls of all entry points -/

theorem Outcome.discard_state {α : Type} (o : Outcome α) : o.discard.state = o.state := by
  cases o <;> rfl

/-- `__hipRegisterFunction`, `hipSetupArgument` and `hipMalloc` leave the
    counter and the registry alone and leave the backend Initialized, however
    they end. -/
theorem step_other_state (d : FatbinDecls) (s : State) (c : Call)
    (hc : c.isRegistryCall = false) :
    (step d s c).state.binaries_loaded = s.binaries_loaded ∧
    (step d s c).state.modules = s.modules ∧
    (step d s c).state.initialized = true := by
  have he : HIPxxInitialize (s.emit .init_call) = entered s := rfl
  cases c with
  | registerFatBinary mem data p => cases hc
  | unregisterFatBinary data => cases hc
  | registerFunction data hostFunction deviceFunction deviceName tl tid bid bd gd ws =>
    obtain ⟨-, h2, h3, h4⟩ :=
      registerOnDevices_state data hostFunction deviceName (entered s).devices (entered s) 0
    simp only [step, __hipRegisterFunction, he]
    rw [h2, h3, h4]
    exact ⟨entered_binaries_loaded s, entered_modules s, entered_initialized s⟩
  | setupArgument arg size offset =>
    simp only [step, hipSetupArgument, he, Outcome.discard, Outcome.state]
    exact ⟨entered_binaries_loaded s, entered_modules s, entered_initialized s⟩
  | malloc ptr size =>
    rw [step, Outcome.discard_state]
    unfold hipMalloc
    dsimp only
    rw [he]
    split
    · exact ⟨entered_binaries_loaded s, entered_modules s, entered_initialized s⟩
    · split
      · exact ⟨entered_binaries_loaded s, entered_modules s, entered_initialized s⟩
      · split <;>
          exact ⟨entered_binaries_loaded s, entered_modules s, entered_initialized s⟩

/-- As long as fewer than `2^32` modules are loaded at once, every
    `__hipUnregisterFatBinary` call of a sequence of successful calls is made
    on an Initialized backend. -/
theorem served_of_peak (d : FatbinDecls) (calls : List Call) (s0 s : State)
    (hcount : s0.binaries_loaded = s0.modules.length)
    (hinit : 0 < s0.binaries_loaded → s0.initialized = true)
    (hpeak : peakLoaded s0.modules.length calls < 2 ^ 32)
    (hrun : run d s0 calls = .ret s ()) :
    unregistersWhileInitialized d s0 calls = true := by
  induction calls generalizing s0 with
  | nil => rfl
  | cons c cs ih =>
    simp only [run] at hrun
    simp only [unregistersWhileInitialized, Bool.and_eq_true]
    cases hout : step d s0 c with
    | abort s1 f => rw [hout] at hrun; cases hrun
    | ret s1 a =>
      rw [hout] at hrun
      simp only at hrun ⊢
      cases c with
      | registerFatBinary mem data p =>
        simp only [step] at hout
        cases hreg : __hipRegisterFatBinary d s0 mem data p with
        | abort s2 f => rw [hreg] at hout; cases hout
        | ret s2 b =>
          rw [hreg] at hout
          simp only [Outcome.discard, Outcome.ret.injEq, and_true] at hout
          subst hout
          obtain ⟨-, hm, hb, hi, -⟩ := register_ret d s0 mem data p s2 b hreg
          simp only [peakLoaded] at hpeak
          have hle := le_peakLoaded (s0.modules.length + 1) cs
          have hlen : s2.modules.length = s0.modules.length + 1 := by rw [hm]; rfl
          have hb1 : s2.binaries_loaded = s0.binaries_loaded + 1 := by
            rw [hb]; apply Nat.mod_eq_of_lt; omega
          exact ⟨rfl, ih s2 (by omega) (fun _ => hi) (by rw [hlen]; omega) hrun⟩
      | unregisterFatBinary data =>
        simp only [step] at hout
        obtain ⟨hmem, hm, hb, hi, -⟩ := unregister_ret s0 data s1 hout
        simp only [peakLoaded] at hpeak
        have hle := le_peakLoaded (s0.modules.length - 1) cs
        have hpos : 0 < s0.modules.length := List.length_pos_of_mem hmem
        have hlen : s1.modules.length = s0.modules.length - 1 := by
          rw [hm]; exact List.length_erase_of_mem hmem
        have hb1 : s1.binaries_loaded = s0.binaries_loaded - 1 := by
          rw [hb]; omega
        have hi0 : s0.initialized = true := hinit (by omega)
        refine ⟨hi0, ih s1 (by omega) (fun h => ?_) (by rw [hlen]; omega) hrun⟩
        rw [hi, if_neg (by omega)]
        exact hi0
      | registerFunction a b c e f g h i j k =>
        obtain ⟨h1, h2, h3⟩ := step_other_state d s0 (.registerFunction a b c e f g h i j k) rfl
        rw [hout] at h1 h2 h3
        simp only [Outcome.state] at h1 h2 h3
        simp only [peakLoaded] at hpeak
        exact ⟨rfl, ih s1 (by rw [h1, h2]; exact hcount) (fun _ => h3)
          (by rw [h2]; exact hpeak) hrun⟩
      | setupArgument a b c =>
        obtain ⟨h1, h2, h3⟩ := step_other_state d s0 (.setupArgument a b c) rfl
        rw [hout] at h1 h2 h3
        simp only [Outcome.state] at h1 h2 h3
        simp only [peakLoaded] at hpeak
        exact ⟨rfl, ih s1 (by rw [h1, h2]; exact hcount) (fun _ => h3)
          (by rw [h2]; exact hpeak) hrun⟩
      | malloc a b =>
        obtain ⟨h1, h2, h3⟩ := step_other_state d s0 (.malloc a b) rfl
        rw [hout] at h1 h2 h3
        simp only [Outcome.state] at h1 h2 h3
        simp only [peakLoaded] at hpeak
        exact ⟨rfl, ih s1 (by rw [h1, h2]; exact hcount) (fun _ => h3)
          (by rw [h2]; exact hpeak) hrun⟩

end HIPxx
